import Mathlib

/-!
SrcTui: the handle registry of `CdkApp`, the callback trampolines, windows and converters

A shallow embedding of `src/cdk_support.h`, `src/cdk_support.cpp`, `src/curses_support.h`
and `src/curses_support.cpp`.

* Pointers (`void *`, `CdkWidget *`, `CdkScreen *`) are natural-number addresses,
  `nullptr` is address `0`.
* `CdkApp::objectMap`, a `std::unordered_map<void *, CdkWidget *>`, is the list of its
  entries; `find`, `insert` and `erase` follow the container's semantics, and an
  iterator is `Option entry` with `none` for `end()`.
* A call whose behaviour the C++ standard leaves undefined (erasing `end()`,
  calling a method through a null pointer) evaluates to `none`; so does a failed
  `assert` in a build without `NDEBUG`, which aborts the program.
* Objects live in a heap indexed by address; a constructor takes the address `this` and
  the value its native constructor returns, a destructor ends the object.
* The toolkit itself is not modelled: a native call is recorded in a history, together
  with the registry at the time of the call. User callbacks are functions of the key.
* An `int` has 32 bits: a sum of two `int` coordinates is reduced to the two's
  complement range, which is what the compiled code yields where the sum leaves the
  range. The one expression that mixes `int` and `size_t`, in `CdkScreen::drawTitle`,
  is computed with the conversions spelled out (`size_t` of 64 bits).
* A `std::string` is the list of its characters; a `char *` is the C string it points
  to, that is the characters before the first NUL.
-/

set_option linter.dupNamespace false

namespace tui

/-- An address; `void *`, `CdkWidget *` and `CdkScreen *` are all addresses. -/
abbrev Ptr := Nat

/-- The null pointer. -/
def nullptr : Ptr := 0

/-- The entries of `CdkApp::objectMap` (`cdk_support.h:184`): native handle, wrapper pointer. -/
abbrev ObjectMap := List (Ptr × Ptr)

namespace unordered_map

/-- The call `find(key)`: an iterator to the entry with that key, `none` for `end()`. -/
def find : ObjectMap → Ptr → Option (Ptr × Ptr)
  | [], _ => none
  | e :: es, k => if e.1 = k then some e else find es k

/-- The call `insert(value)`: the element is inserted only when the container holds no
element with an equivalent key; otherwise the container is left as it is. -/
def insert (m : ObjectMap) (e : Ptr × Ptr) : ObjectMap :=
  match find m e.1 with
  | some _ => m
  | none => e :: m

/-- The call `erase(pos)`: removes the element `pos` refers to. The iterator has to be
dereferenceable; erasing `end()` is undefined behaviour. -/
def erase (m : ObjectMap) : Option (Ptr × Ptr) → Option ObjectMap
  | none => none
  | some e => some (List.erase m e)

/-- The container invariant of `std::unordered_map`: keys are unique. -/
def UniqueKeys (m : ObjectMap) : Prop := (m.map Prod.fst).Nodup

instance (m : ObjectMap) : Decidable (UniqueKeys m) := by
  unfold UniqueKeys; infer_instance

/-- Number of entries stored under key `k`. -/
def count (m : ObjectMap) (k : Ptr) : Nat := (m.filter (fun e => decide (e.1 = k))).length

end unordered_map

namespace CdkApp

/-- `CdkApp::addObject` (`cdk_support.h:142-145`). -/
def addObject (objectMap : ObjectMap) (cdkPtr widgetPtr : Ptr) : ObjectMap :=
  unordered_map.insert objectMap (cdkPtr, widgetPtr)

/-- `CdkApp::removeObject` (`cdk_support.h:148-152`): `find` followed by an unguarded
`erase(pos)`. -/
def removeObject (objectMap : ObjectMap) (cdkPtr : Ptr) : Option ObjectMap :=
  let pos := unordered_map.find objectMap cdkPtr
  unordered_map.erase objectMap pos

/-- `CdkApp::getWidget` (`cdk_support.h:155-162`). -/
def getWidget (objectMap : ObjectMap) (CdkPtr : Ptr) : Ptr :=
  match unordered_map.find objectMap CdkPtr with
  | some pos => pos.2
  | none => nullptr

end CdkApp

/-- One call on the registry interface of `CdkApp`. -/
inductive Call where
  | addObject (cdkPtr widgetPtr : Ptr)
  | removeObject (cdkPtr : Ptr)
  | getWidget (CdkPtr : Ptr)
  deriving DecidableEq, Repr

/-- Effect of one call on the registry; `getWidget` only reads. -/
def stepCall (m : ObjectMap) : Call → Option ObjectMap
  | Call.addObject h w => some (CdkApp.addObject m h w)
  | Call.removeObject h => CdkApp.removeObject m h
  | Call.getWidget _ => some m

/-- Runs a finite sequence of calls, left to right. -/
def runCalls : List Call → ObjectMap → Option ObjectMap
  | [], m => some m
  | c :: cs, m =>
    match stepCall m c with
    | some m' => runCalls cs m'
    | none => none

/-- Every `removeObject` of the sequence is issued for a handle that is registered
at the time of the call. -/
def callsDefined : List Call → ObjectMap → Bool
  | [], _ => true
  | Call.addObject h w :: cs, m => callsDefined cs (CdkApp.addObject m h w)
  | Call.getWidget _ :: cs, m => callsDefined cs m
  | Call.removeObject h :: cs, m =>
    match unordered_map.find m h with
    | none => false
    | some e => callsDefined cs (List.erase m e)

/-! ## Machine integers -/

/-- The value of type `int` (32 bits, two's complement) congruent to an integer. -/
def wrapInt (i : Int) : Int :=
  let r : Int := i % 4294967296
  if r < 2147483648 then r else r - 4294967296

/-- The sum `a + b` of two `int` values as the compiled code computes it. -/
def intAdd (a b : Int) : Int := wrapInt (a + b)

/-- An integer is representable as an `int`. -/
def IntRange (i : Int) : Prop := -2147483648 ≤ i ∧ i < 2147483648

instance (i : Int) : Decidable (IntRange i) := by
  unfold IntRange; infer_instance

/-! ## Objects, heap and native calls -/

/-- A key code handed to the processing hooks. -/
abbrev chtype := Nat

/-- The type tags of the toolkit enumeration `EObjectType` that the wrapper assigns;
`other` stands for the remaining enumerators of the toolkit. -/
inductive EObjectType where
  | vENTRY | vMENU | vLABEL | vRADIO | vFSLIDER | vBUTTONBOX | vSELECTION
  | other (code : Nat)
  deriving DecidableEq, Repr

/-- The seven concrete classes derived from `CdkWidget`: the dynamic type of a widget. -/
inductive WidgetClass where
  | CdkEntry | CdkMenu | CdkLabel | CdkRadio | CdkFSlider | CdkButtonbox | CdkSelection
  deriving DecidableEq, Repr

/-- Data members of `tui::Window` (`curses_support.h:71-79`). -/
structure Window where
  ptr : Ptr := nullptr
  subWindow : Bool := false
  x_pos : Int := 0
  y_pos : Int := 0
  height : Int := 0
  width : Int := 0
  deriving DecidableEq, Repr

/-- `Window::x` (`curses_support.h:52-55`). -/
def Window.x (self : Window) : Int := self.x_pos

/-- `Window::y` (`curses_support.h:57-60`). -/
def Window.y (self : Window) : Int := self.y_pos

/-- `Window::w` (`curses_support.h:62-65`). -/
def Window.w (self : Window) : Int := self.width

/-- `Window::h` (`curses_support.h:67-70`). -/
def Window.h (self : Window) : Int := self.height

/-- Data members of `CdkScreen` (`cdk_support.h:311-317`) and its virtual
`widgetCallback` (`cdk_support.h:292`), whose default body returns 1; a class derived
from `CdkScreen` supplies another function of the widget pointer and the key.
`titleWidget` is the address the `std::unique_ptr` holds, null when it is empty. -/
structure CdkScreen where
  pObj : Ptr
  pCppCurseWin : Ptr
  widgetCallback : Ptr → chtype → Int := fun _ _ => 1
  titleWidget : Ptr := nullptr

/-- Data members of `CdkWidget` (`cdk_support.h:412-422`) together with the members
`pObj` and `nbrChoices` of the derived classes. `cls` is the dynamic type, `objType`
is `none` while the member is still indeterminate, `fn` is `none` for a null
function pointer. `preProcessOverride` is the body of the virtual `preProcess` in a
class that derives from the class of the widget and overrides it, as
`cdk_support.h:376-381` invites; it is `none` for an object of one of the seven
classes themselves, which inherit the body of `CdkWidget`. -/
structure CdkWidget where
  cls : WidgetClass
  screenPtr : Ptr := nullptr
  objType : Option EObjectType := none
  fn : Option (chtype → Int) := none
  pObj : Ptr := nullptr
  nbrChoices : Int := 0
  preProcessOverride : Option (chtype → Int) := none

/-- A call into the native toolkit. Arguments that the wrapper forwards unchanged
(titles, attributes, sizes) are not recorded. `family` names the widget family of the
toolkit function or accessor that is called. -/
inductive NativeCall where
  | newCDK (family : WidgetClass) (cdkscreen : Ptr) (pos : Option (Int × Int))
  | setPreProcess (family : WidgetClass) (object clientData : Ptr)
  | setPostProcess (family : WidgetClass) (object clientData : Ptr)
  | destroyCDK (family : WidgetClass) (object : Ptr)
  | registerCDKObject (cdkscreen : Ptr) (cdktype : EObjectType) (object : Ptr)
  | unregisterCDKObject (cdktype : EObjectType) (object : Ptr)
  | drawCDKLabel (object : Ptr) (box : Bool)
  | newwin (lines cols begin_y begin_x : Int)
  | subwin (parent : Ptr) (lines cols begin_y begin_x : Int)
  | derwin (parent : Ptr) (lines cols begin_y begin_x : Int)
  | mvwin (win : Ptr) (y x : Int)
  | mvderwin (win : Ptr) (y x : Int)
  deriving DecidableEq, Repr

/-- Program state: the static `CdkApp::objectMap`, the live objects by address, the
build configuration (`NDEBUG` disables `assert`), and the history of native calls, each
recorded with the registry as it stood when the call was issued. -/
structure State where
  objectMap : ObjectMap := []
  widgets : Ptr → Option CdkWidget := fun _ => none
  screens : Ptr → Option CdkScreen := fun _ => none
  windows : Ptr → Option Window := fun _ => none
  NDEBUG : Bool := false
  native : List (NativeCall × ObjectMap) := []

namespace State

/-- Access through a `CdkWidget *`: undefined for the null pointer and for an address
that holds no live widget. -/
def widget (s : State) (p : Ptr) : Option CdkWidget :=
  if p = nullptr then none else s.widgets p

/-- Access through a `CdkScreen *` or a `CdkScreen &`. -/
def screen (s : State) (p : Ptr) : Option CdkScreen :=
  if p = nullptr then none else s.screens p

/-- Access through a `Window *`. -/
def window (s : State) (p : Ptr) : Option Window :=
  if p = nullptr then none else s.windows p

/-- Stores a widget object at an address. -/
def setWidget (s : State) (p : Ptr) (w : CdkWidget) : State :=
  { s with widgets := fun q => if q = p then some w else s.widgets q }

/-- Ends the lifetime of the widget object at an address. -/
def dropWidget (s : State) (p : Ptr) : State :=
  { s with widgets := fun q => if q = p then none else s.widgets q }

/-- Issues a native call: it is appended to the history with the current registry. -/
def call (s : State) (c : NativeCall) : State :=
  { s with native := s.native ++ [(c, s.objectMap)] }

/-- The statement `assert(cond)`: aborts the program unless `NDEBUG` is defined. -/
def assert (s : State) (cond : Bool) : Option Unit :=
  if s.NDEBUG || cond then some () else none

end State

namespace CdkScreen

/-- `CdkScreen::x` (`cdk_support.h:273-276`). -/
def x (s : State) (self : CdkScreen) : Option Int :=
  (s.window self.pCppCurseWin).map Window.x

/-- `CdkScreen::y` (`cdk_support.h:277-280`). -/
def y (s : State) (self : CdkScreen) : Option Int :=
  (s.window self.pCppCurseWin).map Window.y

/-- `CdkScreen::h` (`cdk_support.h:281-284`). -/
def h (s : State) (self : CdkScreen) : Option Int :=
  (s.window self.pCppCurseWin).map Window.h

/-- `CdkScreen::w` (`cdk_support.h:285-288`). -/
def w (s : State) (self : CdkScreen) : Option Int :=
  (s.window self.pCppCurseWin).map Window.w

/-- `CdkScreen::getPtr` (`cdk_support.h:308`). -/
def getPtr (self : CdkScreen) : Ptr := self.pObj

end CdkScreen

namespace CdkWidget

/-- `CdkWidget::getObjType` (`cdk_support.h:355-358`); reading an indeterminate
member is undefined. -/
def getObjType (self : CdkWidget) : Option EObjectType := self.objType

/-- The virtual `getCDKObject`; each of the seven overrides returns the member `pObj`
(`cdk_support.h:495-498` and its six siblings). -/
def getCDKObject (self : CdkWidget) : Ptr := self.pObj

/-- `CdkWidget::registerCallback` (`cdk_support.h:365-368`); `none` is a null function
pointer. -/
def registerCallback (self : CdkWidget) (desiredFn : Option (chtype → Int)) : CdkWidget :=
  { self with fn := desiredFn }

/-- `CdkWidget::preProcess` (`cdk_support.h:378-381`). No derived class overrides it. -/
def preProcess (_self : CdkWidget) (_input : chtype) : Int := 1

/-- `CdkWidget::postProcess` (`cdk_support.h:385-390`), the body of the base class. -/
def postProcess (self : CdkWidget) (input : chtype) : Int :=
  match self.fn with
  | some fn => fn input
  | none => 1

end CdkWidget

/-- The body shared by the seven overrides of `postProcess`:
`return screenPtr->widgetCallback(this, input);`. -/
def forwardToScreen (s : State) (this : Ptr) (self : CdkWidget) (input : chtype) :
    Option Int := do
  let scr ← s.screen self.screenPtr
  pure (scr.widgetCallback this input)

/-- `CdkEntry::postProcess` (`cdk_support.h:520-524`). -/
def CdkEntry.postProcess := forwardToScreen

/-- `CdkMenu::postProcess` (`cdk_support.h:634-638`). -/
def CdkMenu.postProcess := forwardToScreen

/-- `CdkLabel::postProcess` (`cdk_support.h:765-769`). -/
def CdkLabel.postProcess := forwardToScreen

/-- `CdkRadio::postProcess` (`cdk_support.h:901-905`). -/
def CdkRadio.postProcess := forwardToScreen

/-- `CdkFSlider::postProcess` (`cdk_support.h:1037-1041`). -/
def CdkFSlider.postProcess := forwardToScreen

/-- `CdkButtonbox::postProcess` (`cdk_support.h:1185-1189`). -/
def CdkButtonbox.postProcess := forwardToScreen

/-- `CdkSelection::postProcess` (`cdk_support.h:1356-1360`). -/
def CdkSelection.postProcess := forwardToScreen

/-- Virtual dispatch of `preProcess` on the dynamic type: the overriding body when the
object belongs to a derived class that overrides `preProcess`, the body of
`CdkWidget` otherwise (none of the seven classes overrides it). -/
def virtualPreProcess (_s : State) (_this : Ptr) (self : CdkWidget) (input : chtype) :
    Option Int :=
  match self.preProcessOverride with
  | some body => some (body input)
  | none => some (CdkWidget.preProcess self input)

/-- Virtual dispatch of `postProcess` on the dynamic type. -/
def virtualPostProcess (s : State) (this : Ptr) (self : CdkWidget) (input : chtype) :
    Option Int :=
  match self.cls with
  | WidgetClass.CdkEntry => CdkEntry.postProcess s this self input
  | WidgetClass.CdkMenu => CdkMenu.postProcess s this self input
  | WidgetClass.CdkLabel => CdkLabel.postProcess s this self input
  | WidgetClass.CdkRadio => CdkRadio.postProcess s this self input
  | WidgetClass.CdkFSlider => CdkFSlider.postProcess s this self input
  | WidgetClass.CdkButtonbox => CdkButtonbox.postProcess s this self input
  | WidgetClass.CdkSelection => CdkSelection.postProcess s this self input

/-- `CdkWidget::preHandler` (`cdk_support.h:395-400`): the lookup result is used
without a null test. -/
def CdkWidget.preHandler (s : State) (_cdktype : EObjectType) (object : Ptr)
    (_clientData : Ptr) (input : chtype) : Option Int := do
  let cdkWidget := CdkApp.getWidget s.objectMap object
  let self ← s.widget cdkWidget
  virtualPreProcess s cdkWidget self input

/-- `CdkWidget::postHandler` (`cdk_support.h:405-410`): the lookup result is used
without a null test. -/
def CdkWidget.postHandler (s : State) (_cdktype : EObjectType) (object : Ptr)
    (_clientData : Ptr) (input : chtype) : Option Int := do
  let cdkWidget := CdkApp.getWidget s.objectMap object
  let self ← s.widget cdkWidget
  virtualPostProcess s cdkWidget self input

/-! ## Constructors and destructors of the seven widget classes -/

/-- The constructor `CdkEntry::CdkEntry` (`cdk_support.h:436-457`). `handle` is the value the
native constructor returns, null when the toolkit fails to create the widget. -/
def CdkEntry.CdkEntry (s : State) (this screen : Ptr) (xpos ypos : Int)
    (handle : Ptr) : Option State := do
  let scr ← s.screen screen
  let mut s := s
  let mut self : CdkWidget := { cls := WidgetClass.CdkEntry }
  self := { self with objType := some EObjectType.vENTRY }
  let termXPos := intAdd xpos (← CdkScreen.x s scr)
  let termYPos := intAdd ypos (← CdkScreen.y s scr)
  s := s.call (NativeCall.newCDK WidgetClass.CdkEntry scr.getPtr (some (termXPos, termYPos)))
  self := { self with pObj := handle }
  if self.pObj ≠ nullptr then
    s := s.call (NativeCall.setPreProcess WidgetClass.CdkEntry self.pObj this)
    s := s.call (NativeCall.setPostProcess WidgetClass.CdkEntry self.pObj this)
    self := { self with screenPtr := screen }
    s := { s with objectMap := CdkApp.addObject s.objectMap self.pObj this }
  pure (s.setWidget this self)

/-- The constructor `CdkMenu::CdkMenu` (`cdk_support.h:541-565`). `handle` is the value the
native constructor returns, null when the toolkit fails to create the widget. -/
def CdkMenu.CdkMenu (s : State) (this screen : Ptr)
    (handle : Ptr) : Option State := do
  let scr ← s.screen screen
  let mut s := s
  let mut self : CdkWidget := { cls := WidgetClass.CdkMenu }
  s := s.call (NativeCall.newCDK WidgetClass.CdkMenu scr.getPtr none)
  self := { self with pObj := handle }
  s.assert (decide (self.pObj ≠ nullptr))
  if self.pObj ≠ nullptr then
    s := s.call (NativeCall.setPreProcess WidgetClass.CdkMenu self.pObj this)
    s := s.call (NativeCall.setPostProcess WidgetClass.CdkMenu self.pObj this)
    self := { self with screenPtr := screen }
    s := { s with objectMap := CdkApp.addObject s.objectMap self.pObj this }
  self := { self with objType := some EObjectType.vMENU }
  pure (s.setWidget this self)

/-- The constructor `CdkLabel::CdkLabel` (`cdk_support.h:660-684`). `handle` is the value the
native constructor returns, null when the toolkit fails to create the widget. -/
def CdkLabel.CdkLabel (s : State) (this screen : Ptr) (xrel yrel : Int)
    (handle : Ptr) : Option State := do
  let scr ← s.screen screen
  let mut s := s
  let mut self : CdkWidget := { cls := WidgetClass.CdkLabel }
  let xpos := intAdd xrel (← CdkScreen.x s scr)
  let ypos := intAdd yrel (← CdkScreen.y s scr)
  s := s.call (NativeCall.newCDK WidgetClass.CdkLabel scr.getPtr (some (xpos, ypos)))
  self := { self with pObj := handle }
  s.assert (decide (self.pObj ≠ nullptr))
  if self.pObj ≠ nullptr then
    self := { self with screenPtr := screen }
    s := { s with objectMap := CdkApp.addObject s.objectMap self.pObj this }
  self := { self with objType := some EObjectType.vLABEL }
  pure (s.setWidget this self)

/-- The constructor `CdkRadio::CdkRadio` (`cdk_support.h:788-827`). `handle` is the value the
native constructor returns, null when the toolkit fails to create the widget. -/
def CdkRadio.CdkRadio (s : State) (this screen : Ptr) (xrel yrel : Int)
    (handle : Ptr) : Option State := do
  let scr ← s.screen screen
  let mut s := s
  let mut self : CdkWidget := { cls := WidgetClass.CdkRadio }
  let xpos := intAdd xrel (← CdkScreen.x s scr)
  let ypos := intAdd yrel (← CdkScreen.y s scr)
  s := s.call (NativeCall.newCDK WidgetClass.CdkRadio scr.getPtr (some (xpos, ypos)))
  self := { self with pObj := handle }
  s.assert (decide (self.pObj ≠ nullptr))
  if self.pObj ≠ nullptr then
    s := s.call (NativeCall.setPreProcess WidgetClass.CdkRadio self.pObj this)
    s := s.call (NativeCall.setPostProcess WidgetClass.CdkRadio self.pObj this)
    self := { self with screenPtr := screen }
    s := { s with objectMap := CdkApp.addObject s.objectMap self.pObj this }
  self := { self with objType := some EObjectType.vRADIO }
  pure (s.setWidget this self)

/-- The constructor `CdkFSlider::CdkFSlider` (`cdk_support.h:922-956`). `handle` is the value the
native constructor returns, null when the toolkit fails to create the widget. -/
def CdkFSlider.CdkFSlider (s : State) (this screen : Ptr) (xrel yrel : Int)
    (handle : Ptr) : Option State := do
  let scr ← s.screen screen
  let mut s := s
  let mut self : CdkWidget := { cls := WidgetClass.CdkFSlider }
  let xpos := intAdd xrel (← CdkScreen.x s scr)
  let ypos := intAdd yrel (← CdkScreen.y s scr)
  s := s.call (NativeCall.newCDK WidgetClass.CdkFSlider scr.getPtr (some (xpos, ypos)))
  self := { self with pObj := handle }
  s.assert (decide (self.pObj ≠ nullptr))
  if self.pObj ≠ nullptr then
    s := s.call (NativeCall.setPreProcess WidgetClass.CdkFSlider self.pObj this)
    s := s.call (NativeCall.setPostProcess WidgetClass.CdkFSlider self.pObj this)
    self := { self with screenPtr := screen }
    s := { s with objectMap := CdkApp.addObject s.objectMap self.pObj this }
  self := { self with objType := some EObjectType.vFSLIDER }
  pure (s.setWidget this self)

/-- The constructor `CdkButtonbox::CdkButtonbox` (`cdk_support.h:1059-1105`). `handle` is the value the
native constructor returns, null when the toolkit fails to create the widget. -/
def CdkButtonbox.CdkButtonbox (s : State) (this screen : Ptr) (xrel yrel : Int)
    (handle : Ptr) : Option State := do
  let scr ← s.screen screen
  let mut s := s
  let mut self : CdkWidget := { cls := WidgetClass.CdkButtonbox }
  let xpos := intAdd xrel (← CdkScreen.x s scr)
  let ypos := intAdd yrel (← CdkScreen.y s scr)
  s := s.call (NativeCall.newCDK WidgetClass.CdkButtonbox scr.getPtr (some (xpos, ypos)))
  self := { self with pObj := handle }
  s.assert (decide (self.pObj ≠ nullptr))
  if self.pObj ≠ nullptr then
    s := s.call (NativeCall.setPreProcess WidgetClass.CdkButtonbox self.pObj this)
    s := s.call (NativeCall.setPostProcess WidgetClass.CdkButtonbox self.pObj this)
    self := { self with screenPtr := screen }
    s := { s with objectMap := CdkApp.addObject s.objectMap self.pObj this }
  self := { self with objType := some EObjectType.vBUTTONBOX }
  pure (s.setWidget this self)

/-- The constructor `CdkSelection::CdkSelection` (`cdk_support.h:1208-1263`). `handle` is the value the
native constructor returns, null when the toolkit fails to create the widget. -/
def CdkSelection.CdkSelection (s : State) (this screen : Ptr) (xrel yrel : Int)
    (selectionList : List String)
    (handle : Ptr) : Option State := do
  let scr ← s.screen screen
  let mut s := s
  let mut self : CdkWidget := { cls := WidgetClass.CdkSelection }
  let xpos := intAdd xrel (← CdkScreen.x s scr)
  let ypos := intAdd yrel (← CdkScreen.y s scr)
  s := s.call (NativeCall.newCDK WidgetClass.CdkSelection scr.getPtr (some (xpos, ypos)))
  self := { self with pObj := handle }
  s.assert (decide (self.pObj ≠ nullptr))
  if self.pObj ≠ nullptr then
    s := s.call (NativeCall.setPreProcess WidgetClass.CdkButtonbox self.pObj this)
    s := s.call (NativeCall.setPostProcess WidgetClass.CdkButtonbox self.pObj this)
    self := { self with screenPtr := screen }
    s := { s with objectMap := CdkApp.addObject s.objectMap self.pObj this }
  self := { self with objType := some EObjectType.vSELECTION }
  self := { self with nbrChoices := (selectionList.length : Int) }
  pure (s.setWidget this self)

/-- The destructor of `CdkEntry` (`cdk_support.h:501-507`); the object is gone afterwards. -/
def CdkEntry.dtor (s : State) (this : Ptr) : Option State := do
  let self ← s.widget this
  let objectMap ← CdkApp.removeObject s.objectMap self.pObj
  let s := { s with objectMap := objectMap }
  let s := s.call (NativeCall.destroyCDK WidgetClass.CdkEntry self.pObj)
  pure (s.dropWidget this)

/-- The destructor of `CdkMenu` (`cdk_support.h:616-620`); the object is gone afterwards. -/
def CdkMenu.dtor (s : State) (this : Ptr) : Option State := do
  let self ← s.widget this
  let objectMap ← CdkApp.removeObject s.objectMap self.pObj
  let s := { s with objectMap := objectMap }
  let s := s.call (NativeCall.destroyCDK WidgetClass.CdkMenu self.pObj)
  pure (s.dropWidget this)

/-- The destructor of `CdkLabel` (`cdk_support.h:747-751`); the object is gone afterwards. -/
def CdkLabel.dtor (s : State) (this : Ptr) : Option State := do
  let self ← s.widget this
  let objectMap ← CdkApp.removeObject s.objectMap self.pObj
  let s := { s with objectMap := objectMap }
  let s := s.call (NativeCall.destroyCDK WidgetClass.CdkLabel self.pObj)
  pure (s.dropWidget this)

/-- The destructor of `CdkRadio` (`cdk_support.h:883-887`); the object is gone afterwards. -/
def CdkRadio.dtor (s : State) (this : Ptr) : Option State := do
  let self ← s.widget this
  let objectMap ← CdkApp.removeObject s.objectMap self.pObj
  let s := { s with objectMap := objectMap }
  let s := s.call (NativeCall.destroyCDK WidgetClass.CdkRadio self.pObj)
  pure (s.dropWidget this)

/-- The destructor of `CdkFSlider` (`cdk_support.h:1019-1023`); the object is gone afterwards. -/
def CdkFSlider.dtor (s : State) (this : Ptr) : Option State := do
  let self ← s.widget this
  let objectMap ← CdkApp.removeObject s.objectMap self.pObj
  let s := { s with objectMap := objectMap }
  let s := s.call (NativeCall.destroyCDK WidgetClass.CdkFSlider self.pObj)
  pure (s.dropWidget this)

/-- The destructor of `CdkButtonbox` (`cdk_support.h:1167-1171`); the object is gone afterwards. -/
def CdkButtonbox.dtor (s : State) (this : Ptr) : Option State := do
  let self ← s.widget this
  let objectMap ← CdkApp.removeObject s.objectMap self.pObj
  let s := { s with objectMap := objectMap }
  let s := s.call (NativeCall.destroyCDK WidgetClass.CdkButtonbox self.pObj)
  pure (s.dropWidget this)

/-- The destructor of `CdkSelection` (`cdk_support.h:1338-1342`); the object is gone afterwards. -/
def CdkSelection.dtor (s : State) (this : Ptr) : Option State := do
  let self ← s.widget this
  let objectMap ← CdkApp.removeObject s.objectMap self.pObj
  let s := { s with objectMap := objectMap }
  let s := s.call (NativeCall.destroyCDK WidgetClass.CdkSelection self.pObj)
  pure (s.dropWidget this)

/-- Destruction through the virtual destructor: the destructor of the dynamic type
runs (the destructor of the base class has an empty body). -/
def deleteWidget (s : State) (this : Ptr) : Option State := do
  let self ← s.widget this
  match self.cls with
  | WidgetClass.CdkEntry => CdkEntry.dtor s this
  | WidgetClass.CdkMenu => CdkMenu.dtor s this
  | WidgetClass.CdkLabel => CdkLabel.dtor s this
  | WidgetClass.CdkRadio => CdkRadio.dtor s this
  | WidgetClass.CdkFSlider => CdkFSlider.dtor s this
  | WidgetClass.CdkButtonbox => CdkButtonbox.dtor s this
  | WidgetClass.CdkSelection => CdkSelection.dtor s this

/-- The argument list of a widget constructor, one form per class, reduced to the
arguments the wrapper itself computes with. -/
inductive CtorArgs where
  | entry (xpos ypos : Int)
  | menu
  | label (xrel yrel : Int)
  | radio (xrel yrel : Int)
  | fslider (xrel yrel : Int)
  | buttonbox (xrel yrel : Int)
  | selection (xrel yrel : Int) (selectionList : List String)
  deriving DecidableEq, Repr

/-- The class a constructor argument list belongs to. -/
def CtorArgs.cls : CtorArgs → WidgetClass
  | CtorArgs.entry _ _ => WidgetClass.CdkEntry
  | CtorArgs.menu => WidgetClass.CdkMenu
  | CtorArgs.label _ _ => WidgetClass.CdkLabel
  | CtorArgs.radio _ _ => WidgetClass.CdkRadio
  | CtorArgs.fslider _ _ => WidgetClass.CdkFSlider
  | CtorArgs.buttonbox _ _ => WidgetClass.CdkButtonbox
  | CtorArgs.selection _ _ _ => WidgetClass.CdkSelection

/-- Construction of a widget of any of the seven classes at address `this` on the
screen at address `screen`. -/
def construct (s : State) (this screen : Ptr) (handle : Ptr) : CtorArgs → Option State
  | CtorArgs.entry xpos ypos => CdkEntry.CdkEntry s this screen xpos ypos handle
  | CtorArgs.menu => CdkMenu.CdkMenu s this screen handle
  | CtorArgs.label xrel yrel => CdkLabel.CdkLabel s this screen xrel yrel handle
  | CtorArgs.radio xrel yrel => CdkRadio.CdkRadio s this screen xrel yrel handle
  | CtorArgs.fslider xrel yrel => CdkFSlider.CdkFSlider s this screen xrel yrel handle
  | CtorArgs.buttonbox xrel yrel => CdkButtonbox.CdkButtonbox s this screen xrel yrel handle
  | CtorArgs.selection xrel yrel selectionList =>
    CdkSelection.CdkSelection s this screen xrel yrel selectionList handle

/-! ## Registration helpers of `CdkScreen` -/

/-- `CdkScreen::unregisterWidget` (`cdk_support.cpp:38-42`): forwards to the toolkit
function `unregisterCDKObject`. -/
def CdkScreen.unregisterWidget (s : State) (_this pWidget : Ptr) : Option State := do
  let w ← s.widget pWidget
  let cdktype ← w.getObjType
  pure (s.call (NativeCall.unregisterCDKObject cdktype w.getCDKObject))

/-- `CdkScreen::registerWidget` (`cdk_support.cpp:45-48`): forwards to the toolkit
function `registerCDKObject`. -/
def CdkScreen.registerWidget (s : State) (this pWidget : Ptr) : Option State := do
  let self ← s.screen this
  let w ← s.widget pWidget
  let cdktype ← w.getObjType
  pure (s.call (NativeCall.registerCDKObject self.pObj cdktype w.getCDKObject))

/-! ## Windows -/

/-- The constructor `Window::Window` with size and position (`curses_support.cpp:5-29`).
`parent` is the object a non-null `Window *` points to, `none` for the null pointer;
`native` is the pointer that `newwin`, `subwin` or `derwin` returns. The result is the
native call issued and the object constructed. -/
def Window.Window (lines cols begin_y begin_x : Int) (parent : Option tui.Window)
    (relative : Bool) (native : Ptr) : NativeCall × tui.Window :=
  let self : tui.Window := { x_pos := begin_x, y_pos := begin_y, height := lines, width := cols }
  match parent with
  | none =>
    let self := { self with subWindow := false }
    (NativeCall.newwin lines cols begin_y begin_x, { self with ptr := native })
  | some parent =>
    let self := { self with subWindow := true }
    if !relative then
      (NativeCall.subwin parent.ptr lines cols begin_y begin_x, { self with ptr := native })
    else
      let self := { self with ptr := native }
      let self := { self with x_pos := intAdd self.x_pos parent.x }
      let self := { self with y_pos := intAdd self.y_pos parent.y }
      (NativeCall.derwin parent.ptr lines cols begin_y begin_x, self)

/-- `Window::move` (`curses_support.cpp:48-60`). The body never reads `relative`. The
result is the native call issued and the object afterwards. -/
def Window.move (self : tui.Window) (y x : Int) (_relative : Bool) :
    NativeCall × tui.Window :=
  let issued :=
    if !self.subWindow then NativeCall.mvwin self.ptr y x
    else NativeCall.mvderwin self.ptr y x
  let self := { self with x_pos := intAdd self.x_pos x }
  let self := { self with y_pos := intAdd self.y_pos y }
  (issued, self)

/-! ## Strings and the two converters -/

/-- The terminator of a C string. -/
def NUL : Char := Char.ofNat 0

/-- What a reader of the `char *` returned by `c_str()` sees: the characters before the
first terminator. -/
def c_str (str : List Char) : List Char := str.takeWhile (fun c => decide (c ≠ NUL))

namespace basic_string

/-- Offset of the first occurrence of `ch` in a sequence of characters. -/
def offsetOf (ch : Char) : List Char → Option Nat
  | [] => none
  | c :: cs => if c = ch then some 0 else (offsetOf ch cs).map (· + 1)

/-- The call `str.find(ch, pos)` of `std::string`: the index of the first occurrence of
`ch` at or after `pos`, `none` for `npos`. -/
def find (str : List Char) (ch : Char) (pos : Nat) : Option Nat :=
  (offsetOf ch (str.drop pos)).map (· + pos)

/-- The call `str.substr(pos, count)` of `std::string`, `count = none` for the default
`npos`; it throws `std::out_of_range` when `pos` exceeds the size. -/
def substr (str : List Char) (pos : Nat) (count : Option Nat) : Option (List Char) :=
  if pos > str.length then none
  else
    match count with
    | some n => some ((str.drop pos).take n)
    | none => some (str.drop pos)

end basic_string

/-- The object built by `ConvertToArrayCharPtr` (`cdk_support.h:70-74`): `rows` holds
one string per row, `ptr` is the array of the `c_str()` pointers of the rows, each seen
as the C string it points to. -/
structure ConvertToArrayCharPtr where
  rows : List (List Char) := []
  ptr : List (List Char) := []
  deriving DecidableEq, Repr

namespace ConvertToArrayCharPtr

/-- The `while` loop and the statement after it of the constructor
(`cdk_support.h:35-43`). Each turn of the loop moves `oldPos` past one line break, so
`fuel` turns with `fuel` above the size of the string are never used up. -/
def splitRows (str : List Char) :
    Nat → Nat → List (List Char) → Option (List (List Char))
  | 0, _, _ => none
  | fuel + 1, oldPos, rows =>
    match basic_string.find str '\n' oldPos with
    | some pos => do
      let tmpSub ← basic_string.substr str oldPos (some (pos - oldPos))
      splitRows str fuel (pos + 1) (rows ++ [tmpSub])
    | none => do
      let tmpSub ← basic_string.substr str oldPos none
      pure (rows ++ [tmpSub])

/-- The constructor `ConvertToArrayCharPtr::ConvertToArrayCharPtr`
(`cdk_support.h:31-52`). -/
def ConvertToArrayCharPtr (str : List Char) : Option tui.ConvertToArrayCharPtr := do
  let rows ← splitRows str (str.length + 1) 0 []
  pure { rows := rows, ptr := rows.map c_str }

/-- `ConvertToArrayCharPtr::getPtr` (`cdk_support.h:54-57`). -/
def getPtr (self : tui.ConvertToArrayCharPtr) : List (List Char) := self.ptr

/-- `ConvertToArrayCharPtr::size` (`cdk_support.h:59-62`); the conversion of the row
count to `int` is taken as exact. -/
def size (self : tui.ConvertToArrayCharPtr) : Int := (self.rows.length : Int)

end ConvertToArrayCharPtr

namespace ConvertFromArrayCharPtr

/-- The `for` loop of the constructor (`cdk_support.h:88-93`) with `todo` turns left,
for strings over any character type; `nl` is the line break appended between rows.
Reading `mesg[index]` beyond the array is undefined. -/
def appendRows {α : Type} (nl : α) (mesg : List (List α)) (nbr : Int) :
    Nat → Nat → List α → Option (List α)
  | 0, _, str => some str
  | todo + 1, index, str => do
    let row ← mesg.get? index
    let str := str ++ row
    let str := if (index : Int) ≠ nbr - 1 then str ++ [nl] else str
    appendRows nl mesg nbr todo (index + 1) str

/-- The joining rule of the constructor for strings over any character type: the loop
runs for `index` from 0 while `index < nbr`. -/
def joinRows {α : Type} (nl : α) (mesg : List (List α)) (nbr : Int) : Option (List α) :=
  appendRows nl mesg nbr nbr.toNat 0 []

/-- The constructor `ConvertFromArrayCharPtr::ConvertFromArrayCharPtr`
(`cdk_support.h:86-94`) followed by `getStr`: each element of `mesg` is the `chtype`
string before its terminator, and the rows are joined with the code of the line break
character. -/
def ConvertFromArrayCharPtr (mesg : List (List chtype)) (nbr : Int) :
    Option (List chtype) :=
  joinRows ('\n'.toNat) mesg nbr

end ConvertFromArrayCharPtr

/-- Rows written one after the other with `nl` between consecutive rows and none
after the last row. -/
def joined {α : Type} (nl : α) : List (List α) → List α
  | [] => []
  | [row] => row
  | row :: next :: rest => row ++ nl :: joined nl (next :: rest)

/-! ## Title and file chooser of `CdkScreen` -/

/-- `CdkScreen::chooseFile` (`cdk_support.h:263-271`). `selectFile` is what the native
dialog returns: the C string of the chosen path, `none` for a null pointer. -/
def CdkScreen.chooseFile (_self : CdkScreen) (_title : List Char)
    (selectFile : Option (List Char)) : List Char :=
  let filepath : List Char := []
  match selectFile with
  | some ptr => ptr
  | none => filepath

/-- The position a constructor argument list carries, `none` for the menu. -/
def CtorArgs.pos : CtorArgs → Option (Int × Int)
  | CtorArgs.entry xpos ypos => some (xpos, ypos)
  | CtorArgs.menu => none
  | CtorArgs.label xrel yrel => some (xrel, yrel)
  | CtorArgs.radio xrel yrel => some (xrel, yrel)
  | CtorArgs.fslider xrel yrel => some (xrel, yrel)
  | CtorArgs.buttonbox xrel yrel => some (xrel, yrel)
  | CtorArgs.selection xrel yrel _ => some (xrel, yrel)

/-! ## Value of a selection widget -/

/-- The `for` loop of `CdkSelection::getValue` (`cdk_support.h:1298-1302`) with `todo`
turns left. `res` is the array of flags the native accessor points to; reading
`*(res + index)` beyond the array is undefined. -/
def CdkSelection.collect (res : List Int) : Nat → Nat → List Int → Option (List Int)
  | 0, _, selected => some selected
  | todo + 1, index, selected => do
    let flag ← res.get? index
    let selected := if flag ≠ 0 then selected ++ [(index : Int)] else selected
    CdkSelection.collect res todo (index + 1) selected

/-- `CdkSelection::getValue` (`cdk_support.h:1291-1304`). `getCDKSelectionChoices` is
the array the native accessor of that name returns for `pObj`; the loop runs for
`index` from 0 while `index < nbrChoices`. -/
def CdkSelection.getValue (self : CdkWidget) (getCDKSelectionChoices : List Int) :
    Option (List Int) :=
  let selected : List Int := []
  let res := getCDKSelectionChoices
  CdkSelection.collect res self.nbrChoices.toNat 0 selected

/-! ## Sample states -/

/-- A screen whose `widgetCallback` is overridden to return the key plus one. -/
def sampleScreen : CdkScreen :=
  { pObj := 1, pCppCurseWin := 300, widgetCallback := fun _ key => (key : Int) + 1 }

/-- A state with one screen at address 200 on a window at address 300, no widget. -/
def sampleState : State :=
  { screens := fun p => if p = 200 then some sampleScreen else none
    windows := fun p =>
      if p = 300 then some { ptr := 2, x_pos := 10, y_pos := 20, height := 24, width := 80 }
      else none }

/-- The entry widget at address 100 with native handle 7 on the sample screen. -/
def sampleEntry : CdkWidget :=
  { cls := WidgetClass.CdkEntry, screenPtr := 200, objType := some EObjectType.vENTRY,
    pObj := 7 }

/-- The sample state after the entry widget has been constructed and registered. -/
def sampleBound : State :=
  { sampleState with
    objectMap := [(7, 100)]
    widgets := fun p => if p = 100 then some sampleEntry else none }

/-- The sample state with the screen at address 200 replaced by one that keeps the
`widgetCallback` of the base class, and with the entry widget bound. -/
def sampleDefault : State :=
  { sampleBound with
    screens := fun p => if p = 200 then some { pObj := 1, pCppCurseWin := 300 } else none }

/-- A callback for `registerCallback`: the key plus 41. -/
def sampleCallback : chtype → Int := fun key => (key : Int) + 41

/-- A top-level window of 10 lines and 20 columns placed at column 5, line 3. -/
def sampleWindow : Window := (Window.Window 10 20 3 5 none true 9).2

/-- A radio widget at address 101 with native handle 8, bound to the screen at address
201; it belongs to a derived class whose `preProcess` returns the key minus 65. -/
def sampleOverriding : CdkWidget :=
  { cls := WidgetClass.CdkRadio, screenPtr := 201, objType := some EObjectType.vRADIO,
    pObj := 8, preProcessOverride := some (fun key => (key : Int) - 65) }

/-- A state with two registered widgets: the sample entry widget on the sample screen,
and the overriding radio widget on a screen that keeps the `widgetCallback` of the base
class. -/
def sampleTwo : State :=
  { sampleState with
    objectMap := [(8, 101), (7, 100)]
    widgets := fun p =>
      if p = 100 then some sampleEntry
      else if p = 101 then some sampleOverriding
      else none
    screens := fun p =>
      if p = 200 then some sampleScreen
      else if p = 201 then some { pObj := 3, pCppCurseWin := 300 }
      else none }

/-- A top-level window whose left edge is stored as the largest `int`. -/
def sampleEdgeWindow : Window := (Window.Window 1 1 0 2147483647 none true 9).2

/-! ## Lemmas on the container -/

namespace unordered_map

theorem find_key {m : ObjectMap} {k : Ptr} {e : Ptr × Ptr} (h : find m k = some e) :
    e.1 = k := by
  induction m with
  | nil => simp [find] at h
  | cons a as ih =>
    unfold find at h
    split at h
    · next hk => cases h; exact hk
    · exact ih h

theorem find_mem {m : ObjectMap} {k : Ptr} {e : Ptr × Ptr} (h : find m k = some e) :
    e ∈ m := by
  induction m with
  | nil => simp [find] at h
  | cons a as ih =>
    unfold find at h
    split at h
    · cases h; exact List.mem_cons_self _ _
    · exact List.mem_cons_of_mem _ (ih h)

theorem find_eq_none_iff {m : ObjectMap} {k : Ptr} :
    find m k = none ↔ k ∉ m.map Prod.fst := by
  induction m with
  | nil => simp [find]
  | cons a as ih =>
    unfold find
    by_cases hk : a.1 = k
    · simp [hk]
    · simp only [hk, if_false, ih, List.map_cons, List.mem_cons, not_or]
      constructor
      · intro h; exact ⟨fun h' => hk h'.symm, h⟩
      · intro h; exact h.2

theorem find_insert_self {m : ObjectMap} {k v : Ptr} (h : find m k = none) :
    find (insert m (k, v)) k = some (k, v) := by
  simp [insert, h, find]

theorem find_insert_of_ne {m : ObjectMap} {k k' v : Ptr} (h : k' ≠ k) :
    find (insert m (k', v)) k = find m k := by
  unfold insert
  split
  · rfl
  · simp [find, h]

theorem insert_of_find_some {m : ObjectMap} {k v : Ptr} {e : Ptr × Ptr}
    (h : find m k = some e) : insert m (k, v) = m := by
  simp [insert, h]

theorem find_listErase_of_ne {m : ObjectMap} {k : Ptr} {e : Ptr × Ptr} (h : e.1 ≠ k) :
    find (List.erase m e) k = find m k := by
  induction m with
  | nil => simp [find]
  | cons a as ih =>
    by_cases hae : a = e
    · subst hae
      simp [List.erase_cons_head, find, h]
    · have hne : ¬ (a == e) = true := by simpa using hae
      rw [List.erase_cons_tail hne]
      unfold find
      rw [ih]

theorem mem_keys_of_mem_listErase {m : ObjectMap} {e : Ptr × Ptr} {k : Ptr}
    (h : k ∈ (List.erase m e).map Prod.fst) : k ∈ m.map Prod.fst := by
  rcases List.mem_map.1 h with ⟨x, hx, rfl⟩
  exact List.mem_map.2 ⟨x, List.mem_of_mem_erase hx, rfl⟩

theorem UniqueKeys.listErase {m : ObjectMap} (hm : UniqueKeys m) (e : Ptr × Ptr) :
    UniqueKeys (List.erase m e) := by
  unfold UniqueKeys at *
  exact List.Nodup.sublist (List.Sublist.map _ (List.erase_sublist e m)) hm

theorem UniqueKeys.insert {m : ObjectMap} (hm : UniqueKeys m) (e : Ptr × Ptr) :
    UniqueKeys (insert m e) := by
  unfold unordered_map.insert
  split
  · exact hm
  · next hnone =>
    unfold UniqueKeys
    rw [List.map_cons, List.nodup_cons]
    exact ⟨find_eq_none_iff.1 hnone, hm⟩

theorem find_listErase_self {m : ObjectMap} (hm : UniqueKeys m) {k : Ptr} {e : Ptr × Ptr}
    (h : find m k = some e) : find (List.erase m e) k = none := by
  induction m with
  | nil => simp [find] at h
  | cons a as ih =>
    unfold UniqueKeys at hm
    rw [List.map_cons, List.nodup_cons] at hm
    unfold find at h
    split at h
    · next hk =>
      cases h
      rw [List.erase_cons_head]
      rw [find_eq_none_iff, ← hk]
      exact hm.1
    · next hk =>
      have hae : a ≠ e := by
        intro hae
        exact hk (hae ▸ find_key h)
      have hne : ¬ (a == e) = true := by simpa using hae
      rw [List.erase_cons_tail hne]
      unfold find
      rw [if_neg hk]
      exact ih hm.2 h

theorem count_le_one_of_uniqueKeys {m : ObjectMap} (hm : UniqueKeys m) (k : Ptr) :
    count m k ≤ 1 := by
  induction m with
  | nil => simp [count]
  | cons a as ih =>
    unfold UniqueKeys at hm
    rw [List.map_cons, List.nodup_cons] at hm
    have ih' := ih hm.2
    unfold count at *
    by_cases hk : a.1 = k
    · have hnone : List.filter (fun e => decide (e.1 = k)) as = [] := by
        rw [List.filter_eq_nil_iff]
        intro x hx
        have : x.1 ≠ k := by
          intro hxk
          exact hm.1 (hk ▸ hxk ▸ List.mem_map_of_mem Prod.fst hx)
        simpa using this
      simp [List.filter_cons, hk, hnone]
    · simp [List.filter_cons, hk]
      exact ih'

end unordered_map

/-! ## Lemmas on call sequences -/

open unordered_map in
theorem stepCall_find_of_ne {m m' : ObjectMap} {c : Call} {h : Ptr}
    (hc : c ≠ Call.removeObject h) (hs : stepCall m c = some m')
    {e : Ptr × Ptr} (hf : find m h = some e) : find m' h = some e := by
  cases c with
  | addObject k v =>
    simp only [stepCall, CdkApp.addObject, Option.some.injEq] at hs
    subst hs
    by_cases hk : k = h
    · subst hk
      rw [insert_of_find_some hf]; exact hf
    · rw [find_insert_of_ne hk]; exact hf
  | removeObject k =>
    have hk : k ≠ h := by
      intro hk; exact hc (by rw [hk])
    simp only [stepCall, CdkApp.removeObject] at hs
    cases hfk : find m k with
    | none => rw [hfk] at hs; simp [erase] at hs
    | some e' =>
      rw [hfk] at hs
      simp only [erase, Option.some.injEq] at hs
      subst hs
      rw [find_listErase_of_ne (by rw [find_key hfk]; exact hk)]
      exact hf
  | getWidget k =>
    simp only [stepCall, Option.some.injEq] at hs
    subst hs; exact hf

theorem runCalls_find_stable {calls : List Call} {m m' : ObjectMap} {h : Ptr}
    (hno : Call.removeObject h ∉ calls) (hr : runCalls calls m = some m')
    {e : Ptr × Ptr} (hf : unordered_map.find m h = some e) :
    unordered_map.find m' h = some e := by
  induction calls generalizing m with
  | nil =>
    simp only [runCalls, Option.some.injEq] at hr
    subst hr; exact hf
  | cons c cs ih =>
    have hc : c ≠ Call.removeObject h := by
      intro hc; exact hno (hc ▸ List.mem_cons_self _ _)
    have hcs : Call.removeObject h ∉ cs := fun hmem => hno (List.mem_cons_of_mem _ hmem)
    unfold runCalls at hr
    cases hs : stepCall m c with
    | none => rw [hs] at hr; simp at hr
    | some m1 =>
      rw [hs] at hr
      exact ih hcs hr (stepCall_find_of_ne hc hs hf)

theorem runCalls_isSome_of_callsDefined {calls : List Call} {m : ObjectMap}
    (hd : callsDefined calls m = true) : ∃ m', runCalls calls m = some m' := by
  induction calls generalizing m with
  | nil => exact ⟨m, rfl⟩
  | cons c cs ih =>
    cases c with
    | addObject k v =>
      simp only [callsDefined] at hd
      simpa [runCalls, stepCall] using ih hd
    | getWidget k =>
      simp only [callsDefined] at hd
      simpa [runCalls, stepCall] using ih hd
    | removeObject k =>
      simp only [callsDefined] at hd
      cases hfk : unordered_map.find m k with
      | none => rw [hfk] at hd; simp at hd
      | some e =>
        rw [hfk] at hd
        simpa [runCalls, stepCall, CdkApp.removeObject, hfk, unordered_map.erase] using ih hd

theorem stepCall_uniqueKeys {m m' : ObjectMap} {c : Call}
    (hm : unordered_map.UniqueKeys m) (hs : stepCall m c = some m') :
    unordered_map.UniqueKeys m' := by
  cases c with
  | addObject k v =>
    simp only [stepCall, CdkApp.addObject, Option.some.injEq] at hs
    subst hs; exact hm.insert _
  | removeObject k =>
    simp only [stepCall, CdkApp.removeObject] at hs
    cases hfk : unordered_map.find m k with
    | none => rw [hfk] at hs; simp [unordered_map.erase] at hs
    | some e =>
      rw [hfk] at hs
      simp only [unordered_map.erase, Option.some.injEq] at hs
      subst hs; exact hm.listErase _
  | getWidget k =>
    simp only [stepCall, Option.some.injEq] at hs
    subst hs; exact hm

theorem runCalls_uniqueKeys {calls : List Call} {m m' : ObjectMap}
    (hm : unordered_map.UniqueKeys m) (hr : runCalls calls m = some m') :
    unordered_map.UniqueKeys m' := by
  induction calls generalizing m with
  | nil =>
    simp only [runCalls, Option.some.injEq] at hr
    subst hr; exact hm
  | cons c cs ih =>
    unfold runCalls at hr
    cases hs : stepCall m c with
    | none => rw [hs] at hr; simp at hr
    | some m1 =>
      rw [hs] at hr
      exact ih (stepCall_uniqueKeys hm hs) hr

theorem removeObject_eq_none_of_absent {m : ObjectMap} {h : Ptr}
    (hf : unordered_map.find m h = none) : CdkApp.removeObject m h = none := by
  simp [CdkApp.removeObject, hf, unordered_map.erase]

theorem removeObject_of_registered {m : ObjectMap} {h : Ptr}
    (hu : unordered_map.UniqueKeys m) (hreg : unordered_map.find m h ≠ none) :
    ∃ m', CdkApp.removeObject m h = some m' ∧
      CdkApp.getWidget m' h = nullptr ∧
      ∀ k, k ≠ h → unordered_map.find m' k = unordered_map.find m k ∧
        CdkApp.getWidget m' k = CdkApp.getWidget m k := by
  cases hf : unordered_map.find m h with
  | none => exact absurd hf hreg
  | some e =>
    refine ⟨List.erase m e, by simp [CdkApp.removeObject, hf, unordered_map.erase], ?_, ?_⟩
    · simp [CdkApp.getWidget, unordered_map.find_listErase_self hu hf]
    · intro k hk
      have hne : e.1 ≠ k := by
        rw [unordered_map.find_key hf]; exact fun hh => hk hh.symm
      have hfind := unordered_map.find_listErase_of_ne (m := m) hne
      exact ⟨hfind, by simp [CdkApp.getWidget, hfind]⟩

/-! ## The registry contract -/

/-- C1: when `h` is not yet registered, `getWidget h` returns `w` right after
`addObject h w`, and it still returns `w` in every state reached by a finite sequence
of `addObject` / `removeObject` / `getWidget` calls that contains no `removeObject h`;
such a sequence does reach a state whenever each of its `removeObject` calls is issued
for a handle registered at that time. -/
theorem getWidget_addObject_stable (m : ObjectMap) (h w : Ptr) (calls : List Call)
    (hfresh : unordered_map.find m h = none) (hno : Call.removeObject h ∉ calls) :
    CdkApp.getWidget (CdkApp.addObject m h w) h = w ∧
    (∀ m', runCalls calls (CdkApp.addObject m h w) = some m' → CdkApp.getWidget m' h = w) ∧
    (callsDefined calls (CdkApp.addObject m h w) = true →
      ∃ m', runCalls calls (CdkApp.addObject m h w) = some m' ∧
        CdkApp.getWidget m' h = w) := by
  have h0 : unordered_map.find (CdkApp.addObject m h w) h = some (h, w) :=
    unordered_map.find_insert_self hfresh
  have hstable : ∀ m', runCalls calls (CdkApp.addObject m h w) = some m' →
      CdkApp.getWidget m' h = w := by
    intro m' hr
    simp [CdkApp.getWidget, runCalls_find_stable hno hr h0]
  refine ⟨by simp [CdkApp.getWidget, h0], hstable, ?_⟩
  intro hd
  obtain ⟨m', hr⟩ := runCalls_isSome_of_callsDefined hd
  exact ⟨m', hr, hstable m' hr⟩

/-- Instance of C1: handle 1 is bound to widget 10 next to the entry (5, 50); a second
registration of handle 1, the removal of handle 5, a lookup and one more registration
follow. -/
theorem getWidget_addObject_stable_witness :
    CdkApp.getWidget (CdkApp.addObject [(5, 50)] 1 10) 1 = 10 ∧
    ∃ m', runCalls [Call.addObject 1 20, Call.removeObject 5, Call.getWidget 1,
        Call.addObject 2 30] (CdkApp.addObject [(5, 50)] 1 10) = some m' ∧
      CdkApp.getWidget m' 1 = 10 :=
  have t := getWidget_addObject_stable [(5, 50)] 1 10
    [Call.addObject 1 20, Call.removeObject 5, Call.getWidget 1, Call.addObject 2 30]
    (by decide) (by decide)
  ⟨t.1, t.2.2 (by decide)⟩

/-- C2: in a registry (keys unique, as in every `std::unordered_map`) where `h` is
registered, `removeObject h` succeeds, afterwards `getWidget h` is null, and the
entry of every other handle is as before. -/
theorem removeObject_registered (m : ObjectMap) (h : Ptr)
    (hu : unordered_map.UniqueKeys m) (hreg : unordered_map.find m h ≠ none) :
    ∃ m', CdkApp.removeObject m h = some m' ∧
      CdkApp.getWidget m' h = nullptr ∧
      ∀ k, k ≠ h → unordered_map.find m' k = unordered_map.find m k ∧
        CdkApp.getWidget m' k = CdkApp.getWidget m k :=
  removeObject_of_registered hu hreg

/-- Instance of C2: handle 1 is removed from a registry that holds handles 1 and 5. -/
theorem removeObject_registered_witness :
    ∃ m', CdkApp.removeObject [(1, 10), (5, 50)] 1 = some m' ∧
      CdkApp.getWidget m' 1 = nullptr ∧
      ∀ k, k ≠ 1 → unordered_map.find m' k = unordered_map.find [(1, 10), (5, 50)] k ∧
        CdkApp.getWidget m' k = CdkApp.getWidget [(1, 10), (5, 50)] k :=
  removeObject_registered [(1, 10), (5, 50)] 1 (by decide) (by decide)

/-- C3, as the claim states it, fails: on the empty registry `addObject 1 10` followed
by `addObject 1 20` leaves handle 1 bound to widget 10, not to widget 20. -/
theorem addObject_twice_does_not_overwrite :
    CdkApp.getWidget (CdkApp.addObject (CdkApp.addObject [] 1 10) 1 20) 1 = 10 ∧
    CdkApp.getWidget (CdkApp.addObject (CdkApp.addObject [] 1 10) 1 20) 1 ≠ 20 := by
  decide

/-- C3 amended: the first registration of a handle wins. The second of two
`addObject` calls for the same handle leaves the registry as the first one made it, so
`getWidget h` returns `w1` when `h` was unregistered before, and the widget `h` was
already bound to otherwise. -/
theorem addObject_twice_keeps_first (m : ObjectMap) (h w1 w2 : Ptr) :
    CdkApp.addObject (CdkApp.addObject m h w1) h w2 = CdkApp.addObject m h w1 ∧
    CdkApp.getWidget (CdkApp.addObject (CdkApp.addObject m h w1) h w2) h =
      (match unordered_map.find m h with
        | some pos => pos.2
        | none => w1) := by
  cases hf : unordered_map.find m h with
  | some e =>
    have h1 : CdkApp.addObject m h w1 = m := unordered_map.insert_of_find_some hf
    have h2 : CdkApp.addObject m h w2 = m := unordered_map.insert_of_find_some hf
    simp [h1, h2, CdkApp.getWidget, hf]
  | none =>
    have h1 : unordered_map.find (CdkApp.addObject m h w1) h = some (h, w1) :=
      unordered_map.find_insert_self hf
    have h2 : CdkApp.addObject (CdkApp.addObject m h w1) h w2 = CdkApp.addObject m h w1 :=
      unordered_map.insert_of_find_some h1
    simp [h2, CdkApp.getWidget, h1]

/-- C4 fails on the code: `removeObject` for a handle without entry passes `end()` to
`erase`, which is undefined; shown on the empty registry, on a registry that holds
another handle, and in the destructor of an entry widget whose native creation
returned null, so that its constructor registered nothing. -/
theorem removeObject_absent_is_undefined :
    CdkApp.removeObject [] 1 = none ∧ CdkApp.removeObject [(5, 50)] 1 = none ∧
    ∃ s1, CdkEntry.CdkEntry sampleState 100 200 1 2 nullptr = some s1 ∧
      s1.objectMap = [] ∧ deleteWidget s1 100 = none :=
  ⟨by decide, by decide, _, rfl, rfl, rfl⟩

/-- C5: in every registry reached from the empty registry by a sequence of calls,
each handle has at most one entry. -/
theorem objectMap_entries_unique (calls : List Call) (m : ObjectMap) (h : Ptr)
    (hr : runCalls calls [] = some m) : unordered_map.count m h ≤ 1 :=
  unordered_map.count_le_one_of_uniqueKeys
    (runCalls_uniqueKeys (by simp [unordered_map.UniqueKeys]) hr) h

/-- Instance of C5: handle 1 is registered twice, handle 2 is registered and removed. -/
theorem objectMap_entries_unique_witness :
    runCalls [Call.addObject 1 10, Call.addObject 1 20, Call.addObject 2 30,
        Call.removeObject 2] [] = some [(1, 10)] ∧
      unordered_map.count [(1, 10)] 1 ≤ 1 :=
  ⟨by decide, objectMap_entries_unique
    [Call.addObject 1 10, Call.addObject 1 20, Call.addObject 2 30, Call.removeObject 2]
    [(1, 10)] 1 (by decide)⟩

/-! ## Trampolines -/

theorem preHandler_of_absent (s : State) (cdktype : EObjectType) (object clientData : Ptr)
    (input : chtype) (hf : unordered_map.find s.objectMap object = none) :
    CdkWidget.preHandler s cdktype object clientData input = none ∧
    CdkWidget.postHandler s cdktype object clientData input = none := by
  simp [CdkWidget.preHandler, CdkWidget.postHandler, CdkApp.getWidget, hf, State.widget]

/-- C6: for a handle `h` registered to the live widget `w` at address `wp`, whatever the
type tag and the client data, `preHandler` returns what the virtual `preProcess` of `w`
returns for the key, that is the value of the overriding body when the class of `w`
overrides `preProcess` and the value of `CdkWidget::preProcess` otherwise, and
`postHandler` returns what the virtual `postProcess` of `w` returns. -/
theorem trampolines_forward_to_widget (s : State) (cdktype : EObjectType)
    (h clientData wp : Ptr) (w : CdkWidget) (key : chtype)
    (hreg : unordered_map.find s.objectMap h = some (h, wp))
    (hw : s.widget wp = some w) :
    CdkWidget.preHandler s cdktype h clientData key = virtualPreProcess s wp w key ∧
    virtualPreProcess s wp w key =
      some (match w.preProcessOverride with
        | some body => body key
        | none => CdkWidget.preProcess w key) ∧
    CdkWidget.postHandler s cdktype h clientData key = virtualPostProcess s wp w key := by
  refine ⟨?_, ?_, ?_⟩
  · simp [CdkWidget.preHandler, CdkApp.getWidget, hreg, hw]
  · unfold virtualPreProcess
    cases w.preProcessOverride <;> rfl
  · simp [CdkWidget.postHandler, CdkApp.getWidget, hreg, hw]

/-- Instance of C6: key 65, with a type tag and a client data pointer that belong to
neither widget. For handle 7 the trampolines reach the sample entry widget: the
inherited `preProcess` answers 1 and the `widgetCallback` of the sample screen answers
66. For handle 8 they reach the radio widget of a derived class: its own `preProcess`
answers 0 and the `widgetCallback` of the base class answers 1. -/
theorem trampolines_forward_to_widget_witness :
    (CdkWidget.preHandler sampleTwo EObjectType.vMENU 7 999 65 = some 1 ∧
      CdkWidget.postHandler sampleTwo EObjectType.vMENU 7 999 65 = some 66) ∧
    (CdkWidget.preHandler sampleTwo EObjectType.vMENU 8 999 65 = some 0 ∧
      CdkWidget.postHandler sampleTwo EObjectType.vMENU 8 999 65 = some 1) := by
  have t := trampolines_forward_to_widget sampleTwo EObjectType.vMENU 7 999 100
    sampleEntry 65 rfl rfl
  have u := trampolines_forward_to_widget sampleTwo EObjectType.vMENU 8 999 101
    sampleOverriding 65 rfl rfl
  exact ⟨⟨t.1.trans (t.2.1.trans rfl), t.2.2.trans rfl⟩,
    ⟨u.1.trans (u.2.1.trans rfl), u.2.2.trans rfl⟩⟩

/-- C7 fails on the code: for handle 7, which the empty registry does not hold, both
trampolines call a method through the null pointer that `getWidget` returned; the call
has no defined result. -/
theorem trampolines_dereference_lookup_miss :
    CdkApp.getWidget sampleState.objectMap 7 = nullptr ∧
    CdkWidget.preHandler sampleState EObjectType.vENTRY 7 0 65 = none ∧
    CdkWidget.postHandler sampleState EObjectType.vENTRY 7 0 65 = none := by
  refine ⟨rfl, rfl, rfl⟩

/-! ## Lifetime of a widget -/

/-- C8: for a live widget of any of the seven classes whose handle is registered (keys
unique, as in every `std::unordered_map`), the destructor succeeds and its native
destroy call is the last native call issued; the registry recorded with that call is
the one `removeObject` produced, and in it `getWidget` of the handle is null. -/
theorem destructor_unregisters_before_release (s : State) (this : Ptr) (w : CdkWidget)
    (hw : s.widget this = some w)
    (hu : unordered_map.UniqueKeys s.objectMap)
    (hreg : unordered_map.find s.objectMap w.pObj ≠ none) :
    ∃ s' m, deleteWidget s this = some s' ∧
      CdkApp.removeObject s.objectMap w.pObj = some m ∧
      s'.native = s.native ++ [(NativeCall.destroyCDK w.cls w.pObj, m)] ∧
      CdkApp.getWidget m w.pObj = nullptr ∧
      s'.objectMap = m := by
  obtain ⟨m, hm, hnull, -⟩ := removeObject_of_registered hu hreg
  have key : deleteWidget s this = some
      ((({ s with objectMap := m } : State).call
        (NativeCall.destroyCDK w.cls w.pObj)).dropWidget this) := by
    cases hc : w.cls <;>
      simp [deleteWidget, hw, hc, hm, CdkEntry.dtor, CdkMenu.dtor, CdkLabel.dtor,
        CdkRadio.dtor, CdkFSlider.dtor, CdkButtonbox.dtor, CdkSelection.dtor]
  exact ⟨_, m, key, hm, rfl, hnull, rfl⟩

/-- Instance of C8: the sample entry widget, registered under handle 7, is destroyed. -/
theorem destructor_unregisters_before_release_witness :
    ∃ s' m, deleteWidget sampleBound 100 = some s' ∧
      CdkApp.removeObject sampleBound.objectMap 7 = some m ∧
      s'.native = sampleBound.native ++
        [(NativeCall.destroyCDK WidgetClass.CdkEntry 7, m)] ∧
      CdkApp.getWidget m 7 = nullptr ∧
      s'.objectMap = m :=
  destructor_unregisters_before_release sampleBound 100 sampleEntry rfl (by decide)
    (by decide)

/-- C9: for each of the seven classes and every argument list, when the native
constructor returns a handle that is not null and not yet in the registry, the
constructor of the widget at `this` on the live screen at `screen` succeeds, and
afterwards `getWidget` of the handle is `this` and the widget object holds the handle
and `screen` as its back-pointer. -/
theorem construct_registers_widget (s : State) (this screen handle : Ptr)
    (args : CtorArgs) (scr : CdkScreen) (win : Window)
    (hthis : this ≠ nullptr)
    (hscr : s.screen screen = some scr)
    (hwin : s.window scr.pCppCurseWin = some win)
    (hhandle : handle ≠ nullptr)
    (hfresh : unordered_map.find s.objectMap handle = none) :
    ∃ s' w, construct s this screen handle args = some s' ∧
      CdkApp.getWidget s'.objectMap handle = this ∧
      s'.widget this = some w ∧
      w.screenPtr = screen ∧ w.pObj = handle ∧ w.cls = args.cls := by
  have hfind := unordered_map.find_insert_self (v := this) hfresh
  cases args <;>
    simp [construct, CtorArgs.cls, CdkEntry.CdkEntry, CdkMenu.CdkMenu, CdkLabel.CdkLabel,
      CdkRadio.CdkRadio, CdkFSlider.CdkFSlider, CdkButtonbox.CdkButtonbox,
      CdkSelection.CdkSelection, hscr, hwin, CdkScreen.x, CdkScreen.y, hhandle,
      State.assert, State.call, State.setWidget, State.widget, hthis, CdkApp.getWidget,
      CdkApp.addObject, hfind]

/-- Instance of C9: a selection widget with two items is constructed at address 100 on
the sample screen and receives the native handle 7. -/
theorem construct_registers_widget_witness :
    ∃ s' w, construct sampleState 100 200 7 (CtorArgs.selection 1 2 ["a", "b"]) = some s' ∧
      CdkApp.getWidget s'.objectMap 7 = 100 ∧
      s'.widget 100 = some w ∧
      w.screenPtr = 200 ∧ w.pObj = 7 ∧
      w.cls = (CtorArgs.selection 1 2 ["a", "b"]).cls :=
  construct_registers_widget sampleState 100 200 7 (CtorArgs.selection 1 2 ["a", "b"])
    sampleScreen { ptr := 2, x_pos := 10, y_pos := 20, height := 24, width := 80 }
    (by decide) rfl rfl (by decide) (by decide)

/-! ## Registration helpers of the screen -/

/-- C10, as the claim states it, fails: after the entry widget at address 100 has been
constructed with handle 7, `unregisterWidget` succeeds and `getWidget 7` still returns
the widget, not null. -/
theorem unregisterWidget_keeps_registry_entry :
    ∃ s1 s2, construct sampleState 100 200 7 (CtorArgs.entry 1 2) = some s1 ∧
      CdkApp.getWidget s1.objectMap 7 = 100 ∧
      CdkScreen.unregisterWidget s1 200 100 = some s2 ∧
      CdkApp.getWidget s2.objectMap 7 = 100 ∧
      CdkApp.getWidget s2.objectMap 7 ≠ nullptr :=
  ⟨_, _, rfl, rfl, rfl, rfl, by decide⟩

/-- C10 amended: `registerWidget` and `unregisterWidget` forward the type tag and the
native handle of the widget to the toolkit functions `registerCDKObject` (together
with the native screen) and `unregisterCDKObject`, and leave the registry of `CdkApp`
as it is, so that `getWidget` returns after either call what it returned before. -/
theorem registerWidget_forwards_to_toolkit (s : State) (this pWidget : Ptr)
    (scr : CdkScreen) (w : CdkWidget) (cdktype : EObjectType)
    (hscr : s.screen this = some scr)
    (hw : s.widget pWidget = some w)
    (htype : w.objType = some cdktype) :
    ∃ s1 s2, CdkScreen.registerWidget s this pWidget = some s1 ∧
      CdkScreen.unregisterWidget s this pWidget = some s2 ∧
      s1.native = s.native ++
        [(NativeCall.registerCDKObject scr.pObj cdktype w.pObj, s.objectMap)] ∧
      s2.native = s.native ++
        [(NativeCall.unregisterCDKObject cdktype w.pObj, s.objectMap)] ∧
      s1.objectMap = s.objectMap ∧ s2.objectMap = s.objectMap ∧
      (∀ h, CdkApp.getWidget s1.objectMap h = CdkApp.getWidget s.objectMap h) ∧
      (∀ h, CdkApp.getWidget s2.objectMap h = CdkApp.getWidget s.objectMap h) := by
  refine ⟨s.call (NativeCall.registerCDKObject scr.pObj cdktype w.pObj),
    s.call (NativeCall.unregisterCDKObject cdktype w.pObj), ?_, ?_, rfl, rfl, rfl, rfl,
    fun _ => rfl, fun _ => rfl⟩
  · simp [CdkScreen.registerWidget, hscr, hw, CdkWidget.getObjType, htype,
      CdkWidget.getCDKObject]
  · simp [CdkScreen.unregisterWidget, hw, CdkWidget.getObjType, htype,
      CdkWidget.getCDKObject]

/-- Instance of C10 amended: the sample entry widget on the sample screen. -/
theorem registerWidget_forwards_to_toolkit_witness :
    ∃ s1 s2, CdkScreen.registerWidget sampleBound 200 100 = some s1 ∧
      CdkScreen.unregisterWidget sampleBound 200 100 = some s2 ∧
      s1.native = sampleBound.native ++
        [(NativeCall.registerCDKObject sampleScreen.pObj EObjectType.vENTRY sampleEntry.pObj,
          sampleBound.objectMap)] ∧
      s2.native = sampleBound.native ++
        [(NativeCall.unregisterCDKObject EObjectType.vENTRY sampleEntry.pObj,
          sampleBound.objectMap)] ∧
      s1.objectMap = sampleBound.objectMap ∧ s2.objectMap = sampleBound.objectMap ∧
      (∀ h, CdkApp.getWidget s1.objectMap h = CdkApp.getWidget sampleBound.objectMap h) ∧
      (∀ h, CdkApp.getWidget s2.objectMap h = CdkApp.getWidget sampleBound.objectMap h) :=
  registerWidget_forwards_to_toolkit sampleBound 200 100 sampleScreen sampleEntry
    EObjectType.vENTRY rfl rfl rfl

/-! ## Coordinates -/

theorem wrapInt_of_range {i : Int} (h : IntRange i) : wrapInt i = i := by
  unfold IntRange at h
  unfold wrapInt
  simp only
  split <;> omega

theorem intAdd_of_range {a b : Int} (h : IntRange (a + b)) : intAdd a b = a + b :=
  wrapInt_of_range h

/-- C11, as the claim states it, fails: on the sample screen, whose window is at
(10, 20), the entry constructor called with the screen-relative position
(2147483647, 2) requests its native widget at column -2147483639, not at column
10 + 2147483647. -/
theorem constructor_position_leaves_int_range :
    ∃ s' rest, construct sampleState 100 200 7 (CtorArgs.entry 2147483647 2) = some s' ∧
      s'.native = sampleState.native ++
        (NativeCall.newCDK WidgetClass.CdkEntry 1 (some (-2147483639, 22)),
          sampleState.objectMap) :: rest ∧
      (-2147483639 : Int) ≠ 10 + 2147483647 :=
  ⟨_, _, rfl, rfl, by decide⟩

/-- C11 amended: on a live screen whose window is at terminal-absolute `(sx, sy)`, a
constructor that takes a screen-relative position `(rx, ry)` (entry, label, radio,
slider, button box, selection) with `sx + rx` and `sy + ry` representable as `int`,
and whose native constructor returns a handle, issues that native constructor, as its
first native call, for the absolute position `(sx + rx, sy + ry)`. -/
theorem constructor_creates_at_absolute_position (s : State) (this screen handle : Ptr)
    (args : CtorArgs) (scr : CdkScreen) (win : Window) (rx ry : Int)
    (hscr : s.screen screen = some scr)
    (hwin : s.window scr.pCppCurseWin = some win)
    (hpos : args.pos = some (rx, ry))
    (hhandle : handle ≠ nullptr)
    (hx : IntRange (win.x + rx)) (hy : IntRange (win.y + ry)) :
    ∃ s' rest, construct s this screen handle args = some s' ∧
      s'.native = s.native ++
        (NativeCall.newCDK args.cls scr.pObj (some (win.x + rx, win.y + ry)),
          s.objectMap) :: rest := by
  have hx' : intAdd rx win.x_pos = win.x_pos + rx := by
    rw [intAdd_of_range (by rw [add_comm]; exact hx), add_comm]
  have hy' : intAdd ry win.y_pos = win.y_pos + ry := by
    rw [intAdd_of_range (by rw [add_comm]; exact hy), add_comm]
  cases args <;>
    simp only [CtorArgs.pos, Option.some.injEq, Prod.mk.injEq, reduceCtorEq] at hpos <;>
    obtain ⟨rfl, rfl⟩ := hpos <;>
    simp [construct, CtorArgs.cls, CdkEntry.CdkEntry, CdkLabel.CdkLabel,
      CdkRadio.CdkRadio, CdkFSlider.CdkFSlider, CdkButtonbox.CdkButtonbox,
      CdkSelection.CdkSelection, hscr, hwin, CdkScreen.x, CdkScreen.y, CdkScreen.getPtr,
      hhandle, State.assert, State.call, State.setWidget, Window.x, Window.y, hx', hy']

/-- Instance of C11 amended: a radio widget at screen-relative (4, 6) on the sample
screen, whose window is at (10, 20), is created at (14, 26). -/
theorem constructor_creates_at_absolute_position_witness :
    ∃ s' rest, construct sampleState 100 200 7 (CtorArgs.radio 4 6) = some s' ∧
      s'.native = sampleState.native ++
        (NativeCall.newCDK WidgetClass.CdkRadio 1 (some (10 + 4, 20 + 6)),
          sampleState.objectMap) :: rest :=
  constructor_creates_at_absolute_position sampleState 100 200 7 (CtorArgs.radio 4 6)
    sampleScreen { ptr := 2, x_pos := 10, y_pos := 20, height := 24, width := 80 } 4 6
    rfl rfl rfl (by decide) (by decide) (by decide)

/-- C12, as the claim states it, fails: a window whose stored column is 2147483647
reports the column -2147483648 after `move(0, 1, true)`, not 2147483647 + 1. -/
theorem window_move_leaves_int_range :
    sampleEdgeWindow.x = 2147483647 ∧
    (Window.move sampleEdgeWindow 0 1 true).2.x = -2147483648 ∧
    (Window.move sampleEdgeWindow 0 1 true).2.x ≠ sampleEdgeWindow.x + 1 := by
  decide

/-- C12 amended: when `x() + dx` and `y() + dy` are representable as `int`,
`Window::move(dy, dx, true)` adds `dx` to what `x()` reports and `dy` to what `y()`
reports, and leaves `w()` and `h()` as they were. -/
theorem window_move_relative_shifts_accessors (self : Window) (dy dx : Int)
    (hx : IntRange (self.x + dx)) (hy : IntRange (self.y + dy)) :
    (Window.move self dy dx true).2.x = self.x + dx ∧
    (Window.move self dy dx true).2.y = self.y + dy ∧
    (Window.move self dy dx true).2.w = self.w ∧
    (Window.move self dy dx true).2.h = self.h := by
  refine ⟨intAdd_of_range hx, intAdd_of_range hy, rfl, rfl⟩

/-- Instance of C12 amended: the sample window at column 5, line 3 is moved by 20
columns and 10 lines. -/
theorem window_move_relative_shifts_accessors_witness :
    (Window.move sampleWindow 10 20 true).2.x = 5 + 20 ∧
    (Window.move sampleWindow 10 20 true).2.y = 3 + 10 ∧
    (Window.move sampleWindow 10 20 true).2.w = 20 ∧
    (Window.move sampleWindow 10 20 true).2.h = 10 :=
  window_move_relative_shifts_accessors sampleWindow 10 20 (by decide) (by decide)

theorem window_move_ignores_relative (self : Window) (y x : Int) :
    Window.move self y x false = Window.move self y x true := rfl

/-- C13 fails on the code: the top-level sample window stands at column 5, line 3;
`move(10, 20, false)` hands the target to `mvwin`, which puts the window at line 10,
column 20, but the stored position becomes column 25, line 13. -/
theorem window_move_absolute_adds_target :
    sampleWindow.subWindow = false ∧ sampleWindow.x = 5 ∧ sampleWindow.y = 3 ∧
    (Window.move sampleWindow 10 20 false).1 = NativeCall.mvwin 9 10 20 ∧
    (Window.move sampleWindow 10 20 false).2.x = 25 ∧
    (Window.move sampleWindow 10 20 false).2.y = 13 ∧
    (Window.move sampleWindow 10 20 false).2.x ≠ 20 ∧
    (Window.move sampleWindow 10 20 false).2.y ≠ 10 := by
  decide

/-- C17: for a widget of any of the seven classes whose `screenPtr` points to a live
screen, the virtual `postProcess` returns for every key what `widgetCallback` of that
screen returns for the widget and the key; that is 1 when the screen keeps the
`widgetCallback` of the base class. -/
theorem postProcess_forwards_to_screen (s : State) (this : Ptr) (w : CdkWidget)
    (key : chtype) (scr : CdkScreen)
    (hscr : s.screen w.screenPtr = some scr) :
    virtualPostProcess s this w key = some (scr.widgetCallback this key) ∧
    (scr.widgetCallback = (fun _ _ => 1) → virtualPostProcess s this w key = some 1) := by
  have h : virtualPostProcess s this w key = some (scr.widgetCallback this key) := by
    cases hc : w.cls <;>
      simp [virtualPostProcess, hc, CdkEntry.postProcess, CdkMenu.postProcess,
        CdkLabel.postProcess, CdkRadio.postProcess, CdkFSlider.postProcess,
        CdkButtonbox.postProcess, CdkSelection.postProcess, forwardToScreen, hscr]
  exact ⟨h, fun hd => by rw [h, hd]⟩

/-- Instance of C17: the sample entry widget and key 65, on the sample screen, whose
`widgetCallback` answers 66, and on a screen that keeps the base class body. -/
theorem postProcess_forwards_to_screen_witness :
    virtualPostProcess sampleBound 100 sampleEntry 65 = some 66 ∧
    virtualPostProcess sampleDefault 100 sampleEntry 65 = some 1 :=
  ⟨(postProcess_forwards_to_screen sampleBound 100 sampleEntry 65 sampleScreen rfl).1,
    (postProcess_forwards_to_screen sampleDefault 100 sampleEntry 65
      { pObj := 1, pCppCurseWin := 300 } rfl).2 rfl⟩

theorem virtualPostProcess_registerCallback (s : State) (this : Ptr) (w : CdkWidget)
    (desiredFn : Option (chtype → Int)) (key : chtype) :
    virtualPostProcess s this (w.registerCallback desiredFn) key
      = virtualPostProcess s this w key := by
  cases hc : w.cls <;>
    simp [virtualPostProcess, CdkWidget.registerCallback, hc, CdkEntry.postProcess,
      CdkMenu.postProcess, CdkLabel.postProcess, CdkRadio.postProcess,
      CdkFSlider.postProcess, CdkButtonbox.postProcess, CdkSelection.postProcess,
      forwardToScreen]

/-- C18 fails on the code: after `registerCallback` with the sample callback, the
body of the base class would return 106 for key 65, but the `postProcess` that virtual
dispatch selects for the entry widget never reads `fn`; it returns the answer of the
screen, here 1. -/
theorem registered_callback_is_not_called :
    sampleCallback 65 = 106 ∧
    CdkWidget.postProcess (sampleEntry.registerCallback (some sampleCallback)) 65 = 106 ∧
    virtualPostProcess (sampleDefault.setWidget 100
        (sampleEntry.registerCallback (some sampleCallback))) 100
      (sampleEntry.registerCallback (some sampleCallback)) 65 = some 1 ∧
    CdkWidget.postHandler (sampleDefault.setWidget 100
        (sampleEntry.registerCallback (some sampleCallback)))
      EObjectType.vENTRY 7 100 65 = some 1 := by
  refine ⟨by decide, by decide, rfl, rfl⟩

/-! ## File chooser -/

/-- C19: `chooseFile` returns the path the native dialog yields, unchanged, and the
empty string when the native call returns a null pointer. -/
theorem chooseFile_returns_native_path (self : CdkScreen) (title path : List Char) :
    CdkScreen.chooseFile self title (some path) = path ∧
    CdkScreen.chooseFile self title none = [] := by
  simp [CdkScreen.chooseFile]

/-! ## Title -/

theorem joined_cons {α : Type} (nl : α) (row : List α) {rows : List (List α)}
    (h : rows ≠ []) : joined nl (row :: rows) = row ++ nl :: joined nl rows := by
  cases rows with
  | nil => exact absurd rfl h
  | cons next rest => rfl

namespace basic_string

theorem offsetOf_eq_none {ch : Char} {l : List Char} (h : offsetOf ch l = none) :
    ch ∉ l := by
  induction l with
  | nil => simp
  | cons c cs ih =>
    unfold offsetOf at h
    split at h
    · simp at h
    · next hc =>
      simp only [Option.map_eq_none'] at h
      simp only [List.mem_cons, not_or]
      exact ⟨fun e => hc e.symm, ih h⟩

theorem offsetOf_eq_some {ch : Char} {l : List Char} {i : Nat}
    (h : offsetOf ch l = some i) :
    ∃ a b, l = a ++ ch :: b ∧ ch ∉ a ∧ a.length = i := by
  induction l generalizing i with
  | nil => simp [offsetOf] at h
  | cons c cs ih =>
    unfold offsetOf at h
    split at h
    · next hc =>
      cases h
      exact ⟨[], cs, by simp [hc], by simp, rfl⟩
    · next hc =>
      simp only [Option.map_eq_some'] at h
      obtain ⟨j, hj, rfl⟩ := h
      obtain ⟨a, b, hl, hna, hlen⟩ := ih hj
      refine ⟨c :: a, b, by simp [hl], ?_, by simp [hlen]⟩
      simp only [List.mem_cons, not_or]
      exact ⟨fun e => hc e.symm, hna⟩

end basic_string

theorem splitRows_spec (str : List Char) :
    ∀ (fuel oldPos : Nat) (rows : List (List Char)),
      oldPos ≤ str.length → str.length - oldPos < fuel →
      ∃ r, ConvertToArrayCharPtr.splitRows str fuel oldPos rows = some (rows ++ r) ∧
        r.length = (str.drop oldPos).count '\n' + 1 ∧
        joined '\n' r = str.drop oldPos ∧
        ∀ row ∈ r, '\n' ∉ row := by
  intro fuel
  induction fuel with
  | zero => intro oldPos rows _ h; omega
  | succ fuel ih =>
    intro oldPos rows hle hfuel
    have hsub : ¬ oldPos > str.length := by omega
    cases hf : basic_string.offsetOf '\n' (str.drop oldPos) with
    | none =>
      have hnot := basic_string.offsetOf_eq_none hf
      refine ⟨[str.drop oldPos], ?_, ?_, rfl, ?_⟩
      · simp [ConvertToArrayCharPtr.splitRows, basic_string.find, hf,
          basic_string.substr, hsub]
      · simp [List.count_eq_zero_of_not_mem hnot]
      · intro row hrow
        simp only [List.mem_singleton] at hrow
        subst hrow; exact hnot
    | some i =>
      obtain ⟨a, b, hab, hna, hlen⟩ := basic_string.offsetOf_eq_some hf
      have hlen_drop : (str.drop oldPos).length = a.length + (b.length + 1) := by
        rw [hab]; simp
      have hlen_str : str.length - oldPos = a.length + (b.length + 1) := by
        rw [← hlen_drop, List.length_drop]
      have hdrop : str.drop (i + oldPos + 1) = b := by
        have : str.drop (i + oldPos + 1) = (str.drop oldPos).drop (i + 1) := by
          rw [List.drop_drop]; congr 1; omega
        rw [this, hab, ← hlen]
        simp
      have htake : (str.drop oldPos).take i = a := by
        rw [hab, ← hlen]; simp
      obtain ⟨r, hr, hcount, hjoin, hrows⟩ :=
        ih (i + oldPos + 1) (rows ++ [a]) (by omega) (by omega)
      refine ⟨a :: r, ?_, ?_, ?_, ?_⟩
      · simp [ConvertToArrayCharPtr.splitRows, basic_string.find, hf,
          basic_string.substr, hsub, htake, hr]
      · rw [hab, hdrop] at *
        simp [hcount, List.count_eq_zero_of_not_mem hna]
      · have hne : r ≠ [] := by
          intro h; rw [h] at hcount; simp at hcount
        rw [joined_cons _ _ hne, hjoin, hdrop, hab]
      · intro row hrow
        rcases List.mem_cons.1 hrow with h | h
        · subst h; exact hna
        · exact hrows row h

theorem appendRows_eq {α : Type} (nl : α) (mesg : List (List α)) :
    ∀ (todo index : Nat) (str : List α), index + todo = mesg.length →
      ConvertFromArrayCharPtr.appendRows nl mesg (mesg.length : Int) todo index str
        = some (str ++ joined nl (mesg.drop index)) := by
  intro todo
  induction todo with
  | zero =>
    intro index str h
    have : mesg.drop index = [] := List.drop_eq_nil_of_le (by omega)
    simp [ConvertFromArrayCharPtr.appendRows, this, joined]
  | succ todo ih =>
    intro index str h
    have hlt : index < mesg.length := by omega
    have hget : mesg.get? index = some (mesg[index]) := by
      simp [List.getElem?_eq_getElem hlt]
    have hdrop : mesg.drop index = mesg[index] :: mesg.drop (index + 1) :=
      List.drop_eq_getElem_cons hlt
    unfold ConvertFromArrayCharPtr.appendRows
    rw [hget]
    simp only [Option.bind_eq_bind, Option.some_bind]
    rw [ih (index + 1) _ (by omega)]
    by_cases hlast : (index : Int) = (mesg.length : Int) - 1
    · have hnil : mesg.drop (index + 1) = [] := List.drop_eq_nil_of_le (by omega)
      have hj : joined nl (mesg.drop index) = mesg[index] := by
        rw [hdrop, hnil]; rfl
      simp [hlast, hnil, hj, joined]
    · have hne : mesg.drop (index + 1) ≠ [] := by
        intro hnil
        have := List.drop_eq_nil_iff.1 hnil
        omega
      have hj : joined nl (mesg.drop index)
          = mesg[index] ++ nl :: joined nl (mesg.drop (index + 1)) := by
        rw [hdrop]; exact joined_cons _ _ hne
      simp [hlast, hj]

theorem joinRows_eq_joined {α : Type} (nl : α) (mesg : List (List α)) :
    ConvertFromArrayCharPtr.joinRows nl mesg (mesg.length : Int) = some (joined nl mesg) := by
  unfold ConvertFromArrayCharPtr.joinRows
  rw [Int.toNat_ofNat, appendRows_eq nl mesg mesg.length 0 [] (by omega)]
  simp

theorem joined_map {α β : Type} (f : α → β) (nl : α) (rows : List (List α)) :
    joined (f nl) (rows.map (List.map f)) = (joined nl rows).map f := by
  induction rows with
  | nil => rfl
  | cons row rest ih =>
    cases rest with
    | nil => rfl
    | cons next rest =>
      simp only [List.map_cons] at ih ⊢
      simp only [joined, List.map_append, List.map_cons]
      rw [← ih]

theorem mem_joined {α : Type} (nl : α) {rows : List (List α)} {row : List α} {c : α}
    (hrow : row ∈ rows) (hc : c ∈ row) : c ∈ joined nl rows := by
  induction rows with
  | nil => simp at hrow
  | cons first rest ih =>
    cases rest with
    | nil =>
      simp only [List.mem_singleton] at hrow
      subst hrow; exact hc
    | cons next rest =>
      rw [joined_cons _ _ (by simp)]
      rcases List.mem_cons.1 hrow with h | h
      · subst h; exact List.mem_append_left _ hc
      · exact List.mem_append_right _ (List.mem_cons_of_mem _ (ih h))

theorem c_str_of_no_NUL {row : List Char} (h : NUL ∉ row) : c_str row = row := by
  unfold c_str
  rw [List.takeWhile_eq_self_iff]
  intro x hx
  simp only [decide_eq_true_eq]
  intro hx0; exact h (hx0 ▸ hx)

theorem joined_getLast_of_last_row_nil {α : Type} (nl : α) :
    ∀ rows : List (List α), rows.getLast? = some [] →
      joined nl rows = [] ∨ (joined nl rows).getLast? = some nl := by
  intro rows
  induction rows with
  | nil => intro h; simp at h
  | cons row rest ih =>
    intro h
    cases rest with
    | nil =>
      simp only [List.getLast?_singleton, Option.some.injEq] at h
      left; simp [joined, h]
    | cons next rest =>
      right
      rw [List.getLast?_cons_cons] at h
      rw [joined_cons _ _ (by simp)]
      rcases ih h with h0 | h1
      · rw [h0]; simp
      · rw [List.getLast?_append]
        cases hj : joined nl (next :: rest) with
        | nil => rw [hj] at h1; simp at h1
        | cons y ys =>
          rw [hj] at h1
          rw [List.getLast?_cons_cons, h1]
          rfl

theorem last_row_nil_of_joined_getLast {α : Type} (nl : α) :
    ∀ rows : List (List α), rows ≠ [] → (∀ row ∈ rows, nl ∉ row) →
      (joined nl rows = [] ∨ (joined nl rows).getLast? = some nl) →
      rows.getLast? = some [] := by
  intro rows
  induction rows with
  | nil => intro h; exact absurd rfl h
  | cons row rest ih =>
    intro _ hrows hj
    cases rest with
    | nil =>
      have hrow : nl ∉ row := hrows row (List.mem_singleton.2 rfl)
      simp only [joined] at hj
      rcases hj with h0 | h1
      · simp [h0]
      · exact absurd (List.mem_of_getLast?_eq_some h1) hrow
    | cons next rest =>
      rw [List.getLast?_cons_cons]
      apply ih (by simp) (fun r hr => hrows r (List.mem_cons_of_mem _ hr))
      rw [joined_cons _ _ (by simp)] at hj
      rcases hj with h0 | h1
      · simp at h0
      · rw [List.getLast?_append] at h1
        cases hJ : joined nl (next :: rest) with
        | nil => left; rfl
        | cons y ys =>
          right
          rw [hJ, List.getLast?_cons_cons] at h1
          cases hl : (y :: ys).getLast? with
          | none => simp at hl
          | some z => rw [hl] at h1; simpa using h1

theorem convert_spec (s : List Char) :
    ∃ c, ConvertToArrayCharPtr.ConvertToArrayCharPtr s = some c ∧
      c.ptr = c.rows.map c_str ∧
      c.rows.length = s.count '\n' + 1 ∧
      joined '\n' c.rows = s ∧
      ∀ row ∈ c.rows, '\n' ∉ row := by
  obtain ⟨r, hr, hcount, hjoin, hrows⟩ :=
    splitRows_spec s (s.length + 1) 0 [] (by omega) (by omega)
  simp only [List.nil_append, List.drop_zero] at hr hcount hjoin
  exact ⟨{ rows := r, ptr := r.map c_str },
    by simp [ConvertToArrayCharPtr.ConvertToArrayCharPtr, hr], rfl, hcount, hjoin, hrows⟩

/-- C15: for every string, the constructor of `ConvertToArrayCharPtr` returns, and the
object has one row more than the string has line breaks, as many pointers as rows, and
`size()` returns that number; "line1", line break, "line2" gives the two rows "line1"
and "line2", and a string without line break, the empty one included, is its only
row. -/
theorem convert_row_count (s : List Char) :
    (∃ c, ConvertToArrayCharPtr.ConvertToArrayCharPtr s = some c ∧
      c.rows.length = s.count '\n' + 1 ∧
      c.getPtr.length = s.count '\n' + 1 ∧
      c.size = (s.count '\n' : Int) + 1 ∧
      (s.count '\n' = 0 → c.rows = [s])) ∧
    (ConvertToArrayCharPtr.ConvertToArrayCharPtr "line1\nline2".toList).map
      ConvertToArrayCharPtr.rows = some ["line1".toList, "line2".toList] ∧
    (ConvertToArrayCharPtr.ConvertToArrayCharPtr []).map
      ConvertToArrayCharPtr.rows = some [[]] := by
  refine ⟨?_, by decide, by decide⟩
  obtain ⟨c, hc, hptr, hcount, hjoin, -⟩ := convert_spec s
  refine ⟨c, hc, hcount, by simp [ConvertToArrayCharPtr.getPtr, hptr, hcount],
    by simp [ConvertToArrayCharPtr.size, hcount], ?_⟩
  intro h0
  rw [h0] at hcount
  obtain ⟨row, hrow⟩ := List.length_eq_one.1 hcount
  rw [hrow] at hjoin ⊢
  simp only [joined] at hjoin
  rw [hjoin]

/-- C16: for a string `s` without NUL character, the rows that `getPtr` exposes,
joined by the rule of `ConvertFromArrayCharPtr` over `size()` rows (a line break after
every row but the last), give `s` again, also when the characters are first turned
into `chtype` codes as the constructor of `ConvertFromArrayCharPtr` reads them; and
the last row is empty exactly when `s` is empty or ends with a line break. -/
theorem convert_join_roundtrip (s : List Char) (hnul : NUL ∉ s) :
    ∃ c, ConvertToArrayCharPtr.ConvertToArrayCharPtr s = some c ∧
      ConvertFromArrayCharPtr.joinRows '\n' c.getPtr c.size = some s ∧
      ConvertFromArrayCharPtr.ConvertFromArrayCharPtr
        (c.getPtr.map (List.map Char.toNat)) c.size = some (s.map Char.toNat) ∧
      (c.rows.getLast? = some [] ↔ s = [] ∨ s.getLast? = some '\n') := by
  obtain ⟨c, hc, hptr, hcount, hjoin, hrows⟩ := convert_spec s
  have hsame : c.getPtr = c.rows := by
    rw [ConvertToArrayCharPtr.getPtr, hptr]
    conv_rhs => rw [← List.map_id c.rows]
    apply List.map_congr_left
    intro row hrow
    exact c_str_of_no_NUL (fun h => hnul (hjoin ▸ mem_joined '\n' hrow h))
  have hsize : c.size = (c.rows.length : Int) := rfl
  have hne : c.rows ≠ [] := by
    intro h; rw [h] at hcount; simp at hcount
  refine ⟨c, hc, ?_, ?_, ?_, ?_⟩
  · rw [hsame, hsize, joinRows_eq_joined, hjoin]
  · rw [hsame, hsize]
    have := joinRows_eq_joined ('\n'.toNat) (c.rows.map (List.map Char.toNat))
    rw [List.length_map] at this
    rw [ConvertFromArrayCharPtr.ConvertFromArrayCharPtr, this, joined_map, hjoin]
  · intro h
    have := joined_getLast_of_last_row_nil '\n' c.rows h
    rwa [hjoin] at this
  · intro h
    exact last_row_nil_of_joined_getLast '\n' c.rows hne hrows (by rwa [hjoin])

/-- Instance of C16: the string "a", line break, line break, "b", line break. -/
theorem convert_join_roundtrip_witness :
    ∃ c, ConvertToArrayCharPtr.ConvertToArrayCharPtr "a\n\nb\n".toList = some c ∧
      ConvertFromArrayCharPtr.joinRows '\n' c.getPtr c.size = some "a\n\nb\n".toList ∧
      ConvertFromArrayCharPtr.ConvertFromArrayCharPtr
        (c.getPtr.map (List.map Char.toNat)) c.size
          = some ("a\n\nb\n".toList.map Char.toNat) ∧
      (c.rows.getLast? = some [] ↔
        "a\n\nb\n".toList = [] ∨ "a\n\nb\n".toList.getLast? = some '\n') :=
  convert_join_roundtrip "a\n\nb\n".toList (by decide)

/-! ## Value of a selection widget -/

theorem collect_eq (res : List Int) :
    ∀ (todo index : Nat) (selected : List Int), index + todo ≤ res.length →
      CdkSelection.collect res todo index selected
        = some (selected ++ ((List.range' index todo).filter
            (fun i => decide (res.getD i 0 ≠ 0))).map Int.ofNat) := by
  intro todo
  induction todo with
  | zero => intro index selected _; simp [CdkSelection.collect]
  | succ todo ih =>
    intro index selected h
    have hlt : index < res.length := by omega
    have hget : res.get? index = some (res[index]) := by
      simp [List.getElem?_eq_getElem hlt]
    have hD : res.getD index 0 = res[index] := by
      simp [List.getD_eq_getElem?_getD, List.getElem?_eq_getElem hlt]
    unfold CdkSelection.collect
    rw [hget]
    simp only [Option.bind_eq_bind, Option.some_bind]
    rw [ih (index + 1) _ (by omega), List.range'_succ, List.filter_cons, hD]
    by_cases hflag : res[index] = 0
    · simp [hflag]
    · simp [hflag]

theorem selection_ctor_nbrChoices {s s' : State} {this screen handle : Ptr}
    {xrel yrel : Int} {selectionList : List String} {w : CdkWidget}
    (hctor : CdkSelection.CdkSelection s this screen xrel yrel selectionList handle
      = some s')
    (hw : s'.widget this = some w) :
    w.nbrChoices = (selectionList.length : Int) ∧ w.cls = WidgetClass.CdkSelection := by
  unfold CdkSelection.CdkSelection at hctor
  cases hscr : s.screen screen with
  | none => simp [hscr] at hctor
  | some scr =>
    cases hwin : s.window scr.pCppCurseWin with
    | none => simp [hscr, CdkScreen.x, CdkScreen.y, hwin] at hctor
    | some win =>
      by_cases hthis : this = nullptr
      · simp [State.widget, hthis] at hw
      · by_cases hh : handle = nullptr <;>
          cases hnd : s.NDEBUG <;>
          simp [hscr, CdkScreen.x, CdkScreen.y, hwin, hh, State.assert, State.call, hnd]
            at hctor <;>
          subst hctor <;>
          simp [State.widget, State.setWidget, hthis] at hw <;>
          subst hw <;> exact ⟨rfl, rfl⟩

/-- C21: for a selection widget that its constructor built from `n` items and for a
native flag array of length `n`, `getValue` returns, and its result is the list of
the indices below `n` in increasing order, restricted to those whose flag is not zero:
an index is in the result exactly when it is below `n` and its flag is not zero, every
element lies in `0 .. n-1`, the result is strictly increasing (so no index occurs
twice), and it is empty when every flag is zero. -/
theorem selection_getValue_selected_indices (s s' : State) (this screen handle : Ptr)
    (xrel yrel : Int) (selectionList : List String) (w : CdkWidget) (res : List Int)
    (hctor : CdkSelection.CdkSelection s this screen xrel yrel selectionList handle
      = some s')
    (hw : s'.widget this = some w)
    (hres : res.length = selectionList.length) :
    ∃ v, CdkSelection.getValue w res = some v ∧
      v = ((List.range selectionList.length).filter
            (fun i => decide (res.getD i 0 ≠ 0))).map Int.ofNat ∧
      (∀ i : Nat, (i : Int) ∈ v ↔
        i < selectionList.length ∧ ∃ flag, res.get? i = some flag ∧ flag ≠ 0) ∧
      (∀ x ∈ v, 0 ≤ x ∧ x < (selectionList.length : Int)) ∧
      v.Pairwise (fun a b => a < b) ∧
      ((∀ flag ∈ res, flag = 0) → v = []) := by
  have hn := (selection_ctor_nbrChoices hctor hw).1
  have hmem : ∀ i : Nat,
      (i : Int) ∈ ((List.range selectionList.length).filter
          (fun i => decide (res.getD i 0 ≠ 0))).map Int.ofNat ↔
        i < selectionList.length ∧ ∃ flag, res.get? i = some flag ∧ flag ≠ 0 := by
    intro i
    simp only [List.mem_map, List.mem_filter, List.mem_range, decide_eq_true_eq,
      Int.ofNat_eq_coe, Int.natCast_inj]
    constructor
    · rintro ⟨j, ⟨hj, hflag⟩, rfl⟩
      have hlt : j < res.length := by omega
      refine ⟨hj, res[j], by simp [List.getElem?_eq_getElem hlt], ?_⟩
      simpa [List.getD_eq_getElem?_getD, List.getElem?_eq_getElem hlt] using hflag
    · rintro ⟨hi, flag, hget, hflag⟩
      refine ⟨i, ⟨hi, ?_⟩, rfl⟩
      have hget' : res[i]? = some flag := by simpa using hget
      simp [List.getD_eq_getElem?_getD, hget', hflag]
  refine ⟨_, ?_, rfl, hmem, ?_, ?_, ?_⟩
  · unfold CdkSelection.getValue
    rw [hn, Int.toNat_ofNat, collect_eq res _ 0 [] (by omega), List.range_eq_range']
    simp
  · intro x hx
    obtain ⟨j, hj, rfl⟩ := List.mem_map.1 hx
    have hj' := List.mem_range.1 (List.mem_filter.1 hj).1
    exact ⟨Int.ofNat_nonneg j, Int.ofNat_lt.2 hj'⟩
  · apply List.Pairwise.map Int.ofNat
      (fun a b (hab : a < b) => (Int.ofNat_lt.2 hab : Int.ofNat a < Int.ofNat b))
    exact List.Pairwise.filter _ (List.pairwise_lt_range _)
  · intro hzero
    rw [List.map_eq_nil_iff, List.filter_eq_nil_iff]
    intro i hi
    have hlt : i < res.length := by rw [hres]; exact List.mem_range.1 hi
    have : res[i] = 0 := hzero _ (List.getElem_mem hlt)
    simp [List.getD_eq_getElem?_getD, List.getElem?_eq_getElem hlt, this]

/-- Instance of C21: a selection widget of four items on the sample screen; the
native flags 0, 1, 0, 5 select the indices 1 and 3. -/
theorem selection_getValue_selected_indices_witness :
    ∃ s' w, CdkSelection.CdkSelection sampleState 100 200 1 2 ["a", "b", "c", "d"] 7
        = some s' ∧
      s'.widget 100 = some w ∧
      ∃ v, CdkSelection.getValue w [0, 1, 0, 5] = some v ∧
        v = ((List.range ["a", "b", "c", "d"].length).filter
              (fun i => decide (([0, 1, 0, 5] : List Int).getD i 0 ≠ 0))).map Int.ofNat ∧
        v = [1, 3] :=
  ⟨_, _, rfl, rfl,
    (selection_getValue_selected_indices sampleState _ 100 200 7 1 2 ["a", "b", "c", "d"] _
      [0, 1, 0, 5] rfl rfl rfl).imp
      (fun _ h => ⟨h.1, h.2.1, h.2.1.trans (by decide)⟩)⟩

/-! ## Re-registration -/

/-- C22: in a registry where handle `h` is bound to widget `w1`, `addObject h w2`
leaves the whole registry as it is, for every `w2`, so `getWidget h` still returns
`w1`. -/
theorem addObject_bound_handle_keeps_registry (m : ObjectMap) (h w1 w2 : Ptr)
    (hbound : unordered_map.find m h = some (h, w1)) :
    CdkApp.addObject m h w2 = m ∧
    CdkApp.getWidget (CdkApp.addObject m h w2) h = w1 := by
  have hsame : CdkApp.addObject m h w2 = m := unordered_map.insert_of_find_some hbound
  exact ⟨hsame, by simp [hsame, CdkApp.getWidget, hbound]⟩

/-- Instance of C22: handle 1 is bound to widget 10 next to the entry (5, 50), and is
registered again for widget 20. -/
theorem addObject_bound_handle_keeps_registry_witness :
    CdkApp.addObject [(1, 10), (5, 50)] 1 20 = [(1, 10), (5, 50)] ∧
    CdkApp.getWidget (CdkApp.addObject [(1, 10), (5, 50)] 1 20) 1 = 10 :=
  addObject_bound_handle_keeps_registry [(1, 10), (5, 50)] 1 10 20 (by decide)

end tui
